import Mathlib

/-
  Shallow embedding of the clox bytecode compiler and virtual machine
  (src/clox/src: chunk.h/chunk.c, table.c, object.c, value.h, vm.h, vm.c,
  compiler.c, memory.c, debug.c).

  Modelling conventions:
  * C pointers to heap strings (ObjString*) are modelled by `ObjRef`, a record
    carrying the allocation identity `id` together with the object's contents.
    C pointer equality corresponds to equality of the `id` fields.
  * The C `double` payload of numeric Values is modelled by `Rat`; every
    program examined below computes only with small integers, on which IEEE-754
    double arithmetic and exact rational arithmetic agree, and no claim below
    depends on rounding.
  * Dynamically grown C arrays are modelled by Lean `Array`s (the
    capacity-doubling reallocation of memory.c/chunk.c is not observable).
    The hash table's bucket array is modelled as a total function from slot
    indices to entries, with a separate `capacity`; slots at or beyond
    `capacity` are never consulted because probing reduces indices
    mod `capacity`.
  * Reads of indeterminate memory (out-of-range constant-pool reads, reads of
    stack slots that were never written) yield the components of an `Undef`
    parameter that is universally quantified in the theorems concerned.
-/

namespace Clox

/-- Single-quote character, used when assembling diagnostic messages. -/
def sq : String := (Char.ofNat 39).toString

/-- Left and right brace characters (used by the scanner model). -/
def lbraceChar : Char := Char.ofNat 123

def dquoteChar : Char := Char.ofNat 34

def rbraceChar : Char := Char.ofNat 125

/-- FNV-1a 32-bit hash of a character sequence.
Modelled from the spec: the ObjString declaration lives in object.h, which is
not under src/; spec §3 says a string object carries "a cached 32-bit FNV-1a
hash of its contents".  (object.c under src/ never writes this field, so in
the C source it is indeterminate; no theorem below depends on its value.) -/
def fnv1aGo : List Char → Nat → Nat
  | [], h => h
  | c :: rest, h => fnv1aGo rest (((h ^^^ (c.toNat % 256)) * 16777619) % 4294967296)

def fnv1a (chars : List Char) : Nat := fnv1aGo chars 2166136261

/-- A heap string object (ObjString).  `id` is the allocation identity: two
refs denote the same C object exactly when their `id`s agree.  `hash` is the
cached content hash consulted by table probing, `chars` the character
buffer. -/
structure ObjRef where
  id : Nat
  hash : Nat
  chars : List Char
deriving DecidableEq, Repr

/-- The tagged value union of value.h (VAL_BOOL, VAL_NIL, VAL_NUMBER, VAL_OBJ). -/
inductive Value where
  | nil : Value
  | bool (b : Bool) : Value
  | number (q : Rat) : Value
  | obj (r : ObjRef) : Value
deriving DecidableEq, Repr

/-- The growing heap: the intrusive object list of the VM (`vm.objects`, head
is the newest allocation) together with the next fresh allocation identity. -/
structure ObjHeap where
  objects : List ObjRef
  nextId : Nat
deriving Repr

/-- allocateString + allocateObject of object.c: create a fresh string object
and link it at the head of the object list.  The hash field is filled from the
content hash (see `fnv1a`). -/
def allocateString (h : ObjHeap) (chars : List Char) : ObjRef × ObjHeap :=
  let r : ObjRef := ⟨h.nextId, fnv1a chars, chars⟩
  (r, ⟨r :: h.objects, h.nextId + 1⟩)

/-- takeString of object.c: claims the buffer and allocates.  It performs no
intern-table lookup. -/
def takeString (h : ObjHeap) (chars : List Char) : ObjRef × ObjHeap :=
  allocateString h chars

/-- copyString of object.c: copies the characters and allocates a fresh
object.  It performs no intern-table lookup: every call returns a brand-new
object with a brand-new identity. -/
def copyString (h : ObjHeap) (chars : List Char) : ObjRef × ObjHeap :=
  allocateString h chars

/-- isFalsey of vm.c: nil and false are falsey, everything else truthy. -/
def isFalsey : Value → Bool
  | Value.nil => true
  | Value.bool b => !b
  | _ => false

/-- valuesEqual.
Modelled from the spec: value.c is not under src/; spec §3: "nil=nil; booleans
by value; numbers by ==; objects by identity" (identity = pointer equality,
i.e. equality of `id`). -/
def valuesEqual : Value → Value → Bool
  | Value.nil, Value.nil => true
  | Value.bool a, Value.bool b => a = b
  | Value.number a, Value.number b => a = b
  | Value.obj a, Value.obj b => a.id = b.id
  | _, _ => false

/-- printValue.
Modelled from the spec: value.c is not under src/; numbers print via printf %g
which renders integral doubles without a decimal point (all printed numbers in
the programs below are small integers); printObject of object.c prints the
character buffer of a string. -/
def printValue : Value → String
  | Value.nil => "nil"
  | Value.bool true => "true"
  | Value.bool false => "false"
  | Value.number q => if q.den = 1 then toString q.num else toString q
  | Value.obj r => String.mk r.chars

/-! ## Hash table (table.c) -/

/-- One bucket (Entry of table.h): `key = none` encodes the C NULL key; a NULL
key with a `nil` value is truly empty, a NULL key with value `true` is a
tombstone. -/
structure Entry where
  key : Option ObjRef
  value : Value
deriving DecidableEq, Repr

def emptyEntry : Entry := ⟨none, Value.nil⟩

/-- The table of table.h: `entries` models the bucket array of length
`capacity` as a total function on slot indices. -/
structure Table where
  count : Nat
  capacity : Nat
  entries : Nat → Entry

/-- initTable of table.c. -/
def initTable : Table := ⟨0, 0, fun _ => emptyEntry⟩

/-- TABLE_MAX_LOAD comparison `count + 1 > capacity * 0.75` of tableSet,
rendered exactly over the integers (both sides of the C double comparison are
exactly representable). -/
def loadExceeded (count capacity : Nat) : Bool := 4 * (count + 1) > 3 * capacity

/-- GROW_CAPACITY of memory.h.
Modelled from the spec: memory.h is not under src/; spec §4.2 "Capacity growth
uses a simple doubling (start 8, then ×2)". -/
def growCapacity (c : Nat) : Nat := if c < 8 then 8 else 2 * c

/-- The body of findEntry of table.c: starting from slot `index`, probe
linearly, remembering the first tombstone.  Each step consumes one unit of
fuel; the caller passes `capacity` units, which lets the probe inspect every
slot once.  A `none` result corresponds to the C loop cycling forever (no
matching key, no truly-empty slot). -/
def findEntryGo (f : Nat → Entry) (capacity : Nat) (key : ObjRef) :
    Nat → Nat → Option Nat → Option Nat
  | 0, _, _ => none
  | fuel + 1, index, tombstone =>
    let entry := f index
    match entry.key with
    | none =>
      if entry.value = Value.nil then
        -- truly empty: return the first passed tombstone if any, else this slot
        match tombstone with
        | some t => some t
        | none => some index
      else
        -- tombstone: remember the first one, keep probing
        findEntryGo f capacity key fuel ((index + 1) % capacity)
          (match tombstone with | some t => some t | none => some index)
    | some k =>
      if k.id = key.id then some index
      else findEntryGo f capacity key fuel ((index + 1) % capacity) tombstone

/-- findEntry of table.c: probe from `hash(key) mod capacity`. -/
def findEntry (f : Nat → Entry) (capacity : Nat) (key : ObjRef) : Option Nat :=
  findEntryGo f capacity key capacity (key.hash % capacity) none

/-- tableGet of table.c: `none` models a `false` return (key absent; the
`none` produced by a non-terminating probe cannot occur for the well-formed
tables considered in the theorems below). -/
def tableGet (t : Table) (key : ObjRef) : Option Value :=
  if t.count = 0 then none
  else
    match findEntry t.entries t.capacity key with
    | none => none
    | some i =>
      match (t.entries i).key with
      | none => none
      | some _ => some ((t.entries i).value)

/-- adjustCapacity of table.c.  The source allocates and nulls the new bucket
array, then assigns `table->capacity = 0` and runs the reinsertion loop
`for (i = 0; i < table->capacity; i++)` — a loop bounded by the capacity it
has just zeroed, so the loop body never executes: no old entry is reinserted
and `count` is left at its previous value.  The old array is freed and the
new (entirely empty) array installed with the new capacity. -/
def adjustCapacity (t : Table) (capacity : Nat) : Table :=
  ⟨t.count, capacity, fun _ => emptyEntry⟩

/-- tableSet of table.c: grow when the load factor would be exceeded, locate
the slot, bump `count` only when filling a truly-empty slot, store, and
report whether the key was new.  A failed probe (`none`, impossible for
well-formed tables) leaves the table unchanged, mirroring a C loop that never
returns. -/
def tableSet (t : Table) (key : ObjRef) (value : Value) : Bool × Table :=
  let t := if loadExceeded t.count t.capacity
           then adjustCapacity t (growCapacity t.capacity) else t
  match findEntry t.entries t.capacity key with
  | none => (false, t)
  | some i =>
    let entry := t.entries i
    let isNewKey := entry.key = none
    let count := if isNewKey ∧ entry.value = Value.nil then t.count + 1 else t.count
    (isNewKey, ⟨count, t.capacity, Function.update t.entries i ⟨some key, value⟩⟩)

/-- The list of slot indices a linear probe starting at `start` visits, of
the given length: start, (start+1) % cap, (start+2) % cap, … .  Reasoning
device for findEntryGo (which equals probeRun over this list, see
`findEntryGo_eq_probeRun`). -/
def probeSeq (cap : Nat) : Nat → Nat → List Nat
  | _, 0 => []
  | start, n + 1 => start :: probeSeq cap ((start + 1) % cap) n

/-- findEntryGo reformulated over an explicit list of slots to visit: the
same case analysis per slot — stop at a match or at a truly-empty slot
(returning the first tombstone passed, if any), keep probing at a tombstone
or a foreign key. -/
def probeRun (f : Nat → Entry) (key : ObjRef) : List Nat → Option Nat → Option Nat
  | [], _ => none
  | j :: rest, tombstone =>
    let entry := f j
    match entry.key with
    | none =>
      if entry.value = Value.nil then
        match tombstone with
        | some t => some t
        | none => some j
      else
        probeRun f key rest (match tombstone with | some t => some t | none => some j)
    | some k =>
      if k.id = key.id then some j
      else probeRun f key rest tombstone

/-- Slot j lets a probe for `key` continue past it: a tombstone or a foreign
key. -/
def continueSlot (f : Nat → Entry) (key : ObjRef) (j : Nat) : Prop :=
  (∃ k, (f j).key = some k ∧ k.id ≠ key.id) ∨ ((f j).key = none ∧ (f j).value ≠ Value.nil)

/-- Slot j holds `key` (pointer comparison, i.e. by identity). -/
def matchSlot (f : Nat → Entry) (key : ObjRef) (j : Nat) : Prop :=
  ∃ k, (f j).key = some k ∧ k.id = key.id

/-- Decidable test for a truly-empty bucket (NULL key, nil value). -/
def trulyEmptyB (e : Entry) : Bool :=
  decide (e.key = none) && decide (e.value = Value.nil)

/-- The key identity stored in slot j, if any. -/
def keyIdAt (f : Nat → Entry) (j : Nat) : Option Nat := ((f j).key).map ObjRef.id

/-- The number of buckets that are used or tombstoned — what `count` is
meant to track. -/
def Table.load (t : Table) : Nat :=
  ((List.range t.capacity).filter (fun j => !trulyEmptyB (t.entries j))).length

/-- The well-formedness invariant the table module maintains and that the
round-trip theorem assumes: `count` dominates the number of non-truly-empty
buckets, the load factor has been respected (count ≤ 0.75·capacity, written
integrally), and no key identity occupies two buckets. -/
def TableWF (t : Table) : Prop :=
  t.load ≤ t.count ∧
  4 * t.count ≤ 3 * t.capacity ∧
  ∀ i, i < t.capacity → ∀ j, j < t.capacity →
    keyIdAt t.entries i ≠ none → keyIdAt t.entries i = keyIdAt t.entries j → i = j

/-- tableDelete of table.c: locate the entry and replace it by a tombstone
(NULL key, `true` value); `count` is not decremented. -/
def tableDelete (t : Table) (key : ObjRef) : Bool × Table :=
  if t.count = 0 then (false, t)
  else
    match findEntry t.entries t.capacity key with
    | none => (false, t)
    | some i =>
      match (t.entries i).key with
      | none => (false, t)
      | some _ =>
        (true, ⟨t.count, t.capacity,
                Function.update t.entries i ⟨none, Value.bool true⟩⟩)

/-! ## Chunks and opcodes (chunk.h, chunk.c) -/

/-- A chunk of bytecode: code bytes, a parallel line map, and the constant
pool (chunk.h).  The capacity-doubling of the C buffers is not observable and
is elided. -/
structure Chunk where
  code : Array Nat
  lines : Array Nat
  constants : Array Value
deriving DecidableEq, Repr

def initChunk : Chunk := ⟨#[], #[], #[]⟩

/-- writeChunk of chunk.c: append one byte and its source line. -/
def writeChunk (c : Chunk) (byte line : Nat) : Chunk :=
  ⟨c.code.push byte, c.lines.push line, c.constants⟩

/-- addConstant of chunk.c: append to the constant pool, returning the new
0-based index. -/
def addConstant (c : Chunk) (v : Value) : Nat × Chunk :=
  (c.constants.size, ⟨c.code, c.lines, c.constants.push v⟩)

/-- Opcode byte values.  OP_CONSTANT through OP_RETURN (values 0–9) are the
enumerators of the OpCode enum of src/clox/src/chunk.h, in source order.
Modelled from the spec: the remaining opcodes, referenced by vm.c and
compiler.c but missing from the OpCode enum under src/ (their declaration
belongs to a chunk.h revision that is not under src/), are assigned the
following distinct values.  No theorem below depends on the numeric values of
the modelled opcodes beyond their being distinct from the first ten and from
each other; the theorems do depend on OP_CONSTANT being 0, which holds in any
C enum whose first enumerator is OP_CONSTANT. -/
def OP_CONSTANT : Nat := 0
def OP_NIL : Nat := 1
def OP_TRUE : Nat := 2
def OP_FALSE : Nat := 3
def OP_NEGATE : Nat := 4
def OP_ADD : Nat := 5
def OP_SUBTRACT : Nat := 6
def OP_MULTIPLY : Nat := 7
def OP_DIVIDE : Nat := 8
def OP_RETURN : Nat := 9
def OP_POP : Nat := 10
def OP_GET_LOCAL : Nat := 11
def OP_SET_LOCAL : Nat := 12
def OP_GET_GLOBAL : Nat := 13
def OP_DEFINE_GLOBAL : Nat := 14
def OP_SET_GLOBAL : Nat := 15
def OP_EQUAL : Nat := 16
def OP_GREATER : Nat := 17
def OP_LESS : Nat := 18
def OP_NOT : Nat := 19
def OP_PRINT : Nat := 20
def OP_JUMP : Nat := 21
def OP_JUMP_IF_FALSE : Nat := 22

/-- The byte values carrying a case label in the dispatch switch of run()
(vm.c).  Neither OP_JUMP nor OP_JUMP_IF_FALSE appears: a byte equal to either
of them (or any other unlisted value) matches no case, and the switch falls
through with no effect. -/
def handledOpcodes : List Nat :=
  [OP_CONSTANT, OP_NIL, OP_TRUE, OP_FALSE, OP_POP, OP_GET_LOCAL, OP_SET_LOCAL,
   OP_GET_GLOBAL, OP_DEFINE_GLOBAL, OP_SET_GLOBAL, OP_EQUAL, OP_NEGATE,
   OP_GREATER, OP_LESS, OP_ADD, OP_SUBTRACT, OP_MULTIPLY, OP_DIVIDE, OP_NOT,
   OP_PRINT, OP_RETURN]

/-! ## The virtual machine (vm.h, vm.c) -/

/-- STACK_MAX of vm.h: the value stack is a fixed array of exactly this many
slots. -/
def STACK_MAX : Nat := 256

/-- Sources for reads of indeterminate memory: `val` is produced by a read of
a Value-typed location that was never written (an out-of-range constant-pool
index, or a stack slot above the written region), `ref` by treating such a
value as a string object (AS_STRING on a non-object).  Theorems quantify over
this parameter, so they hold whatever the indeterminate memory contains. -/
structure Undef where
  val : Value
  ref : ObjRef

/-- The VM state of vm.h plus the observable output streams.  `stack` models
the fixed 256-slot C array as a total function on slot indices — `push`
performs no bound check, so a write at index ≥ STACK_MAX models the C write
past the end of the array.  `objects`/`nextId` form the heap. -/
structure VMState where
  ip : Nat
  stack : Nat → Value
  stackTop : Nat
  globals : Table
  strings : Table
  heap : ObjHeap
  output : List String
  errors : List String

inductive InterpretResult where
  | ok
  | compileError
  | runtimeError
deriving DecidableEq, Repr

/-- push of vm.c: write at stackTop and increment it.  There is no bound
check of any kind. -/
def push (v : Value) (s : VMState) : VMState :=
  { s with stack := Function.update s.stack s.stackTop v,
           stackTop := s.stackTop + 1 }

/-- pop of vm.c: decrement stackTop and read the slot. -/
def popV (s : VMState) : Value × VMState :=
  (s.stack (s.stackTop - 1), { s with stackTop := s.stackTop - 1 })

/-- peek of vm.c. -/
def peek (distance : Nat) (s : VMState) : Value :=
  s.stack (s.stackTop - 1 - distance)

/-- runtimeError of vm.c: print the message and the line of the last byte
consumed to stderr, reset the stack, and (as the source does, in this
function) null out the VM's object list. -/
def runtimeErrorFn (ch : Chunk) (msg : String) (s : VMState) : VMState :=
  { s with errors := s.errors ++ [msg, "[line " ++ toString (ch.lines.getD (s.ip - 1) 0) ++ "] in script"],
           stackTop := 0,
           heap := ⟨[], s.heap.nextId⟩ }

/-- concatenate of vm.c: pop both strings, build the concatenation, allocate
via takeString (no interning), push the result.  The caller has already
checked that both operands are string objects; on others the casts read the
indeterminate `Undef.ref`. -/
def concatenate (u : Undef) (s : VMState) : VMState :=
  let (bv, s) := popV s
  let (av, s) := popV s
  let b := match bv with | Value.obj r => r | _ => u.ref
  let a := match av with | Value.obj r => r | _ => u.ref
  let (r, heap) := takeString s.heap (a.chars ++ b.chars)
  push (Value.obj r) { s with heap }

/-- Outcome of one trip around the dispatch loop of run() (vm.c): either the
loop continues with a new state, or the instruction returned from run(). -/
inductive StepResult where
  | next (s : VMState)
  | halt (s : VMState) (r : InterpretResult)

/-- The BINARY_OP macro of vm.c for the numeric opcodes: both operands must
be numbers, else runtime error; pop both and push the combination. -/
def binaryOpNum (ch : Chunk) (op : Rat → Rat → Value) (s : VMState) : StepResult :=
  match peek 0 s, peek 1 s with
  | Value.number _, Value.number _ =>
    let (bv, s) := popV s
    let (av, s) := popV s
    let b := match bv with | Value.number q => q | _ => 0
    let a := match av with | Value.number q => q | _ => 0
    StepResult.next (push (op a b) s)
  | _, _ =>
    StepResult.halt (runtimeErrorFn ch "Operands must be numbers." s)
      InterpretResult.runtimeError

/-- One iteration of the dispatch loop of run() (vm.c): read the byte at ip,
advance ip, and switch on the opcode.  The switch has no default case, so a
byte matching no case (in particular OP_JUMP and OP_JUMP_IF_FALSE, which
carry no case label) falls through: the loop continues at the next byte with
nothing else changed. -/
def step (u : Undef) (ch : Chunk) (s : VMState) : StepResult :=
  let instr := ch.code.getD s.ip 0
  let s := { s with ip := s.ip + 1 }
  if instr = OP_CONSTANT then
    let idx := ch.code.getD s.ip 0
    let s := { s with ip := s.ip + 1 }
    StepResult.next (push (ch.constants.getD idx u.val) s)
  else if instr = OP_NIL then
    StepResult.next (push Value.nil s)
  else if instr = OP_TRUE then
    StepResult.next (push (Value.bool true) s)
  else if instr = OP_FALSE then
    StepResult.next (push (Value.bool false) s)
  else if instr = OP_POP then
    StepResult.next (popV s).2
  else if instr = OP_GET_LOCAL then
    let slot := ch.code.getD s.ip 0
    let s := { s with ip := s.ip + 1 }
    StepResult.next (push (s.stack slot) s)
  else if instr = OP_SET_LOCAL then
    let slot := ch.code.getD s.ip 0
    let s := { s with ip := s.ip + 1 }
    StepResult.next { s with stack := Function.update s.stack slot (peek 0 s) }
  else if instr = OP_GET_GLOBAL then
    let idx := ch.code.getD s.ip 0
    let s := { s with ip := s.ip + 1 }
    let name := match ch.constants.getD idx u.val with
                | Value.obj r => r
                | _ => u.ref
    match tableGet s.globals name with
    | none =>
      StepResult.halt
        (runtimeErrorFn ch ("Undefined variable " ++ sq ++ String.mk name.chars ++ sq ++ ".") s)
        InterpretResult.runtimeError
    | some value => StepResult.next (push value s)
  else if instr = OP_DEFINE_GLOBAL then
    let idx := ch.code.getD s.ip 0
    let s := { s with ip := s.ip + 1 }
    let name := match ch.constants.getD idx u.val with
                | Value.obj r => r
                | _ => u.ref
    let (_, globals) := tableSet s.globals name (peek 0 s)
    StepResult.next (popV { s with globals }).2
  else if instr = OP_SET_GLOBAL then
    let idx := ch.code.getD s.ip 0
    let s := { s with ip := s.ip + 1 }
    let name := match ch.constants.getD idx u.val with
                | Value.obj r => r
                | _ => u.ref
    let (isNewKey, globals) := tableSet s.globals name (peek 0 s)
    let s := { s with globals }
    if isNewKey then
      let (_, globals) := tableDelete s.globals name
      let s := { s with globals }
      StepResult.halt
        (runtimeErrorFn ch ("Undefined variable " ++ sq ++ String.mk name.chars ++ sq ++ ".") s)
        InterpretResult.runtimeError
    else
      StepResult.next s
  else if instr = OP_EQUAL then
    let (b, s) := popV s
    let (a, s) := popV s
    StepResult.next (push (Value.bool (valuesEqual a b)) s)
  else if instr = OP_NEGATE then
    match peek 0 s with
    | Value.number _ =>
      let (v, s) := popV s
      let q := match v with | Value.number q => q | _ => 0
      StepResult.next (push (Value.number (-q)) s)
    | _ =>
      StepResult.halt (runtimeErrorFn ch "Operand must be a number." s)
        InterpretResult.runtimeError
  else if instr = OP_GREATER then
    binaryOpNum ch (fun a b => Value.bool (a > b)) s
  else if instr = OP_LESS then
    binaryOpNum ch (fun a b => Value.bool (a < b)) s
  else if instr = OP_ADD then
    match peek 0 s, peek 1 s with
    | Value.obj _, Value.obj _ => StepResult.next (concatenate u s)
    | Value.number _, Value.number _ =>
      let (bv, s) := popV s
      let (av, s) := popV s
      let b := match bv with | Value.number q => q | _ => 0
      let a := match av with | Value.number q => q | _ => 0
      StepResult.next (push (Value.number (a + b)) s)
    | _, _ =>
      StepResult.halt
        (runtimeErrorFn ch "Operands must be two numbers or two strings." s)
        InterpretResult.runtimeError
  else if instr = OP_SUBTRACT then
    binaryOpNum ch (fun a b => Value.number (a - b)) s
  else if instr = OP_MULTIPLY then
    binaryOpNum ch (fun a b => Value.number (a * b)) s
  else if instr = OP_DIVIDE then
    binaryOpNum ch (fun a b => Value.number (a / b)) s
  else if instr = OP_NOT then
    let (v, s) := popV s
    StepResult.next (push (Value.bool (isFalsey v)) s)
  else if instr = OP_PRINT then
    let (v, s) := popV s
    StepResult.next { s with output := s.output ++ [printValue v] }
  else if instr = OP_RETURN then
    StepResult.halt s InterpretResult.ok
  else
    StepResult.next s

/-- Iterate the dispatch loop for at most `fuel` instructions, returning the
state reached together with the result of run() if it returned within the
fuel. -/
def runFuel (u : Undef) (ch : Chunk) : Nat → VMState → VMState × Option InterpretResult
  | 0, s => (s, none)
  | fuel + 1, s =>
    match step u ch s with
    | StepResult.halt s r => (s, some r)
    | StepResult.next s => runFuel u ch fuel s

/-- The initial VM state for executing a chunk (initVM + interpret of vm.c):
empty stack (its slots hold indeterminate memory), empty globals and intern
tables, the given heap carried over from compilation, ip at the first byte. -/
def initialVM (u : Undef) (heap : ObjHeap) : VMState :=
  ⟨0, fun _ => u.val, 0, initTable, initTable, heap, [], []⟩

/-- In the case analyses below: the state carried by a halt outcome. -/
def StepResult.stateOf : StepResult → VMState
  | StepResult.next s => s
  | StepResult.halt s _ => s

/-- The run() return value carried by a step outcome, if the step halted. -/
def StepResult.resultOf : StepResult → Option InterpretResult
  | StepResult.next _ => none
  | StepResult.halt _ r => some r

/-! ## Scanner

Modelled from the spec: scanner.c and scanner.h are not under src/ (only
their caller compiler.c is); the definitions below follow spec §4.1 word for
word.  Token kinds are those consumed by compiler.c. -/

inductive TokenType where
  | TOKEN_LEFT_PAREN | TOKEN_RIGHT_PAREN | TOKEN_LEFT_BRACE | TOKEN_RIGHT_BRACE
  | TOKEN_COMMA | TOKEN_DOT | TOKEN_MINUS | TOKEN_PLUS
  | TOKEN_SEMICOLON | TOKEN_SLASH | TOKEN_STAR
  | TOKEN_BANG | TOKEN_BANG_EQUAL | TOKEN_EQUAL | TOKEN_EQUAL_EQUAL
  | TOKEN_GREATER | TOKEN_GREATER_EQUAL | TOKEN_LESS | TOKEN_LESS_EQUAL
  | TOKEN_IDENTIFIER | TOKEN_STRING | TOKEN_NUMBER
  | TOKEN_AND | TOKEN_CLASS | TOKEN_ELSE | TOKEN_FALSE | TOKEN_FOR | TOKEN_FUN
  | TOKEN_IF | TOKEN_NIL | TOKEN_OR | TOKEN_PRINT | TOKEN_RETURN | TOKEN_SUPER
  | TOKEN_THIS | TOKEN_TRUE | TOKEN_VAR | TOKEN_WHILE
  | TOKEN_ERROR | TOKEN_EOF
deriving DecidableEq, Repr

/-- A token: kind, source slice (for TOKEN_ERROR the slice is the message
text, as in the C scanner), and 1-based line. -/
structure Token where
  type : TokenType
  lexeme : List Char
  line : Nat
deriving DecidableEq, Repr

/-- Scanner state: the remaining source text and the current line. -/
structure ScannerState where
  src : List Char
  line : Nat
deriving Repr

def isDigitC (c : Char) : Bool := decide (Char.ofNat 48 ≤ c) && decide (c ≤ Char.ofNat 57)

def isAlphaC (c : Char) : Bool :=
  (decide (Char.ofNat 97 ≤ c) && decide (c ≤ Char.ofNat 122)) ||
  (decide (Char.ofNat 65 ≤ c) && decide (c ≤ Char.ofNat 90)) ||
  decide (c = Char.ofNat 95)

/-- Skip whitespace and line comments, tracking the line counter (spec §4.1).
The Boolean records whether the scan is currently inside a `//` comment,
which runs to the end of the line. -/
def skipWhitespaceGo : List Char → Nat → Bool → List Char × Nat
  | [], line, _ => ([], line)
  | c :: rest, line, inComment =>
    if inComment then
      if c = Char.ofNat 10 then skipWhitespaceGo rest (line + 1) false
      else skipWhitespaceGo rest line true
    else if c = ' ' ∨ c = Char.ofNat 13 ∨ c = Char.ofNat 9 then
      skipWhitespaceGo rest line false
    else if c = Char.ofNat 10 then
      skipWhitespaceGo rest (line + 1) false
    else if c = '/' then
      match rest with
      | '/' :: rest2 => skipWhitespaceGo rest2 line true
      | _ => (c :: rest, line)
    else (c :: rest, line)

def skipWhitespace (src : List Char) (line : Nat) : List Char × Nat :=
  skipWhitespaceGo src line false

/-- Keyword recognition (spec §4.1): the sixteen reserved words map to their
dedicated token kinds, everything else is an identifier. -/
def identifierType (w : List Char) : TokenType :=
  if w = "and".toList then TokenType.TOKEN_AND
  else if w = "class".toList then TokenType.TOKEN_CLASS
  else if w = "else".toList then TokenType.TOKEN_ELSE
  else if w = "false".toList then TokenType.TOKEN_FALSE
  else if w = "for".toList then TokenType.TOKEN_FOR
  else if w = "fun".toList then TokenType.TOKEN_FUN
  else if w = "if".toList then TokenType.TOKEN_IF
  else if w = "nil".toList then TokenType.TOKEN_NIL
  else if w = "or".toList then TokenType.TOKEN_OR
  else if w = "print".toList then TokenType.TOKEN_PRINT
  else if w = "return".toList then TokenType.TOKEN_RETURN
  else if w = "super".toList then TokenType.TOKEN_SUPER
  else if w = "this".toList then TokenType.TOKEN_THIS
  else if w = "true".toList then TokenType.TOKEN_TRUE
  else if w = "var".toList then TokenType.TOKEN_VAR
  else if w = "while".toList then TokenType.TOKEN_WHILE
  else TokenType.TOKEN_IDENTIFIER

/-- scanToken (spec §4.1): skip whitespace and comments, then classify the
next lexeme. -/
def scanToken (st : ScannerState) : Token × ScannerState :=
  let (src, line) := skipWhitespace st.src st.line
  match src with
  | [] => (⟨TokenType.TOKEN_EOF, [], line⟩, ⟨[], line⟩)
  | c :: rest =>
    if isAlphaC c then
      let tail := rest.takeWhile (fun d => isAlphaC d || isDigitC d)
      let w := c :: tail
      (⟨identifierType w, w, line⟩, ⟨rest.drop tail.length, line⟩)
    else if isDigitC c then
      let intTail := rest.takeWhile isDigitC
      let afterInt := rest.drop intTail.length
      match afterInt with
      | '.' :: d :: afterDot =>
        if isDigitC d then
          let fracTail := afterDot.takeWhile isDigitC
          let w := (c :: intTail) ++ '.' :: d :: fracTail
          (⟨TokenType.TOKEN_NUMBER, w, line⟩, ⟨afterDot.drop fracTail.length, line⟩)
        else
          (⟨TokenType.TOKEN_NUMBER, c :: intTail, line⟩, ⟨afterInt, line⟩)
      | _ => (⟨TokenType.TOKEN_NUMBER, c :: intTail, line⟩, ⟨afterInt, line⟩)
    else if c = dquoteChar then
      let body := rest.takeWhile (fun d => ¬ d = dquoteChar)
      let afterBody := rest.drop body.length
      let line2 := line + body.countP (fun d => d = Char.ofNat 10)
      match afterBody with
      | _ :: afterQuote =>
        (⟨TokenType.TOKEN_STRING, (c :: body) ++ [c], line2⟩, ⟨afterQuote, line2⟩)
      | [] =>
        (⟨TokenType.TOKEN_ERROR, "Unterminated string.".toList, line2⟩, ⟨[], line2⟩)
    else if c = '(' then (⟨TokenType.TOKEN_LEFT_PAREN, [c], line⟩, ⟨rest, line⟩)
    else if c = ')' then (⟨TokenType.TOKEN_RIGHT_PAREN, [c], line⟩, ⟨rest, line⟩)
    else if c = lbraceChar then (⟨TokenType.TOKEN_LEFT_BRACE, [c], line⟩, ⟨rest, line⟩)
    else if c = rbraceChar then (⟨TokenType.TOKEN_RIGHT_BRACE, [c], line⟩, ⟨rest, line⟩)
    else if c = ',' then (⟨TokenType.TOKEN_COMMA, [c], line⟩, ⟨rest, line⟩)
    else if c = '.' then (⟨TokenType.TOKEN_DOT, [c], line⟩, ⟨rest, line⟩)
    else if c = '-' then (⟨TokenType.TOKEN_MINUS, [c], line⟩, ⟨rest, line⟩)
    else if c = '+' then (⟨TokenType.TOKEN_PLUS, [c], line⟩, ⟨rest, line⟩)
    else if c = ';' then (⟨TokenType.TOKEN_SEMICOLON, [c], line⟩, ⟨rest, line⟩)
    else if c = '/' then (⟨TokenType.TOKEN_SLASH, [c], line⟩, ⟨rest, line⟩)
    else if c = '*' then (⟨TokenType.TOKEN_STAR, [c], line⟩, ⟨rest, line⟩)
    else if c = '!' then
      match rest with
      | '=' :: rest2 => (⟨TokenType.TOKEN_BANG_EQUAL, [c, '='], line⟩, ⟨rest2, line⟩)
      | _ => (⟨TokenType.TOKEN_BANG, [c], line⟩, ⟨rest, line⟩)
    else if c = '=' then
      match rest with
      | '=' :: rest2 => (⟨TokenType.TOKEN_EQUAL_EQUAL, [c, '='], line⟩, ⟨rest2, line⟩)
      | _ => (⟨TokenType.TOKEN_EQUAL, [c], line⟩, ⟨rest, line⟩)
    else if c = '<' then
      match rest with
      | '=' :: rest2 => (⟨TokenType.TOKEN_LESS_EQUAL, [c, '='], line⟩, ⟨rest2, line⟩)
      | _ => (⟨TokenType.TOKEN_LESS, [c], line⟩, ⟨rest, line⟩)
    else if c = '>' then
      match rest with
      | '=' :: rest2 => (⟨TokenType.TOKEN_GREATER_EQUAL, [c, '='], line⟩, ⟨rest2, line⟩)
      | _ => (⟨TokenType.TOKEN_GREATER, [c], line⟩, ⟨rest, line⟩)
    else
      (⟨TokenType.TOKEN_ERROR, "Unexpected character.".toList, line⟩, ⟨rest, line⟩)

/-! ## Compiler (compiler.c) -/

/-- The Precedence enum of compiler.c, low to high. -/
def PREC_NONE : Nat := 0
def PREC_ASSIGNMENT : Nat := 1
def PREC_OR : Nat := 2
def PREC_AND : Nat := 3
def PREC_EQUALITY : Nat := 4
def PREC_COMPARISON : Nat := 5
def PREC_TERM : Nat := 6
def PREC_FACTOR : Nat := 7
def PREC_UNARY : Nat := 8
def PREC_CALL : Nat := 9
def PREC_PRIMARY : Nat := 10

def UINT8_COUNT : Nat := 256

/-- A Local of compiler.c: the declaring identifier token and its scope
depth, −1 meaning declared but not yet initialized. -/
structure Local where
  name : Token
  depth : Int
deriving DecidableEq, Repr

def dummyLocal : Local := ⟨⟨TokenType.TOKEN_ERROR, [], 0⟩, 0⟩

/-- The combined parser + compiler state of compiler.c (the module-scope
`parser`, `current` compiler and `compilingChunk`), together with the heap
(copyString allocates onto the VM's object list during compilation) and the
diagnostics printed to stderr. -/
structure CState where
  scanner : ScannerState
  current : Token
  previous : Token
  hadError : Bool
  panicMode : Bool
  chunk : Chunk
  locals : Array Local
  scopeDepth : Int
  heap : ObjHeap
  diags : List String

/-- errorAt of compiler.c: while panicMode is set, return immediately —
nothing is printed and hadError is left alone.  Otherwise set panicMode,
print the diagnostic, and set hadError.  (The C format string
`" at '%.*s"` lacks a closing quote; the message is reproduced as printed.) -/
def errorAt (s : CState) (token : Token) (message : String) : CState :=
  if s.panicMode then s
  else
    let loc :=
      if token.type = TokenType.TOKEN_EOF then " at end"
      else if token.type = TokenType.TOKEN_ERROR then ""
      else " at " ++ sq ++ String.mk token.lexeme
    { s with panicMode := true, hadError := true,
             diags := s.diags ++
               ["[line " ++ toString token.line ++ "] Error" ++ loc ++ ": " ++ message] }

/-- error of compiler.c. -/
def errorFn (s : CState) (message : String) : CState := errorAt s s.previous message

/-- errorAtCurrent of compiler.c. -/
def errorAtCurrent (s : CState) (message : String) : CState := errorAt s s.current message

/-- Loop bound for the error-token-skipping loop of advance() and for
synchronize(): both loops consume at least one character of the remaining
source per iteration, so any bound at least the source length is exact; a
fixed large bound is used (no program below comes near it). -/
def SCAN_BOUND : Nat := 1000000

/-- The token-fetch loop of advance() of compiler.c: report and skip
TOKEN_ERROR tokens (each consumes source text, so the remaining source length
bounds the loop). -/
def advanceLoop : Nat → CState → CState
  | 0, s => s
  | n + 1, s =>
    let (tok, sc) := scanToken s.scanner
    let s := { s with scanner := sc, current := tok }
    if tok.type = TokenType.TOKEN_ERROR then
      advanceLoop n (errorAtCurrent s (String.mk tok.lexeme))
    else s

/-- advance of compiler.c. -/
def advance (s : CState) : CState :=
  advanceLoop SCAN_BOUND { s with previous := s.current }

/-- consume of compiler.c. -/
def consume (t : TokenType) (message : String) (s : CState) : CState :=
  if s.current.type = t then advance s else errorAtCurrent s message

/-- check of compiler.c. -/
def checkT (t : TokenType) (s : CState) : Bool := s.current.type = t

/-- match of compiler.c (renamed: `match` is reserved in Lean). -/
def matchTok (t : TokenType) (s : CState) : Bool × CState :=
  if checkT t s then (true, advance s) else (false, s)

/-- emitByte of compiler.c. -/
def emitByte (byte : Nat) (s : CState) : CState :=
  { s with chunk := writeChunk s.chunk byte s.previous.line }

/-- emitBytes of compiler.c. -/
def emitBytes (b1 b2 : Nat) (s : CState) : CState := emitByte b2 (emitByte b1 s)

/-- emitJump of compiler.c: the instruction plus two 0xff placeholder bytes;
returns the offset of the placeholder. -/
def emitJump (instruction : Nat) (s : CState) : Nat × CState :=
  let s := emitByte instruction s
  let s := emitByte 255 s
  let s := emitByte 255 s
  (s.chunk.code.size - 2, s)

/-- patchJump of compiler.c: write the (big-endian) distance from the byte
after the placeholder to the current end of code. -/
def patchJump (offset : Nat) (s : CState) : CState :=
  let jump := s.chunk.code.size - offset - 2
  let s := if jump > 65535 then errorFn s "Too much code to jump over." else s
  { s with chunk := { s.chunk with
      code := (s.chunk.code.set! offset ((jump >>> 8) % 256)).set! (offset + 1) (jump % 256) } }

/-- makeConstant of compiler.c: add to the pool; indexes above 255 are a
compile error reported as index 0 (the pool keeps the appended value). -/
def makeConstant (v : Value) (s : CState) : Nat × CState :=
  let (constant, chunk) := addConstant s.chunk v
  let s := { s with chunk }
  if constant > 255 then (0, errorFn s "Too many constants in one chunk.")
  else (constant, s)

/-- emitConstant of compiler.c. -/
def emitConstant (v : Value) (s : CState) : CState :=
  let (idx, s) := makeConstant v s
  emitBytes OP_CONSTANT idx s

/-- identifierConstant of compiler.c: copyString the lexeme (a fresh heap
object every time — copyString does not intern) and add it to the pool. -/
def identifierConstant (name : Token) (s : CState) : Nat × CState :=
  let (r, heap) := copyString s.heap name.lexeme
  makeConstant (Value.obj r) { s with heap }

/-- identifiersEqual of compiler.c: length plus memcmp. -/
def identifiersEqual (a b : Token) : Bool := a.lexeme = b.lexeme

/-- The backward scan of resolveLocal of compiler.c (argument is the number
of locals still to inspect; slot inspected is that minus one). -/
def resolveLocalGo (name : Token) : Nat → CState → CState × Int
  | 0, s => (s, -1)
  | i + 1, s =>
    let l := s.locals.getD i dummyLocal
    if identifiersEqual name l.name then
      let s := if l.depth = -1 then
                 errorFn s ("Can" ++ sq ++ "t read local variable in its own initializer.")
               else s
      (s, (i : Int))
    else resolveLocalGo name i s

/-- resolveLocal of compiler.c: −1 means not a local, hence global. -/
def resolveLocal (name : Token) (s : CState) : CState × Int :=
  resolveLocalGo name s.locals.size s

/-- addLocal of compiler.c. -/
def addLocal (name : Token) (s : CState) : CState :=
  if s.locals.size = UINT8_COUNT then
    errorFn s "Too many local variables in function."
  else
    { s with locals := s.locals.push ⟨name, -1⟩ }

/-- The duplicate-declaration scan of declareVariable of compiler.c. -/
def declareVariableGo (name : Token) : Nat → CState → CState
  | 0, s => s
  | i + 1, s =>
    let l := s.locals.getD i dummyLocal
    if l.depth ≠ -1 ∧ l.depth < s.scopeDepth then s
    else
      let s := if identifiersEqual name l.name then
                 errorFn s "Already a variable with this name in this scope."
               else s
      declareVariableGo name i s

/-- declareVariable of compiler.c: in global scope do nothing; otherwise
check for a duplicate in the current scope and add the (uninitialized)
local. -/
def declareVariable (s : CState) : CState :=
  if s.scopeDepth = 0 then s
  else
    let name := s.previous
    addLocal name (declareVariableGo name s.locals.size s)

/-- parseVariable of compiler.c. -/
def parseVariable (errorMessage : String) (s : CState) : Nat × CState :=
  let s := consume TokenType.TOKEN_IDENTIFIER errorMessage s
  let s := declareVariable s
  if s.scopeDepth > 0 then (0, s)
  else identifierConstant s.previous s

/-- markInitialized of compiler.c. -/
def markInitialized (s : CState) : CState :=
  if s.locals.size = 0 then s
  else
    let i := s.locals.size - 1
    { s with locals := s.locals.set! i { s.locals.getD i dummyLocal with depth := s.scopeDepth } }

/-- defineVariable of compiler.c. -/
def defineVariable (global : Nat) (s : CState) : CState :=
  if s.scopeDepth > 0 then markInitialized s
  else emitBytes OP_DEFINE_GLOBAL global s

/-- beginScope of compiler.c. -/
def beginScope (s : CState) : CState := { s with scopeDepth := s.scopeDepth + 1 }

/-- The pop-locals loop of endScope of compiler.c. -/
def endScopeGo : Nat → CState → CState
  | 0, s => s
  | n + 1, s =>
    if s.locals.size > 0 ∧ (s.locals.getD (s.locals.size - 1) dummyLocal).depth > s.scopeDepth then
      endScopeGo n { (emitByte OP_POP s) with locals := s.locals.pop }
    else s

/-- endScope of compiler.c: leave the scope and emit one OP_POP per local
that fell out of scope. -/
def endScope (s : CState) : CState :=
  let s := { s with scopeDepth := s.scopeDepth - 1 }
  endScopeGo s.locals.size s

/-- The synchronize loop of compiler.c (fuel-bounded; the fuel passed always
exceeds the number of remaining tokens). -/
def synchronizeGo : Nat → CState → CState
  | 0, s => s
  | n + 1, s =>
    if s.current.type = TokenType.TOKEN_EOF then s
    else if s.previous.type = TokenType.TOKEN_SEMICOLON then s
    else if s.current.type = TokenType.TOKEN_CLASS ∨
            s.current.type = TokenType.TOKEN_FUN ∨
            s.current.type = TokenType.TOKEN_VAR ∨
            s.current.type = TokenType.TOKEN_FOR ∨
            s.current.type = TokenType.TOKEN_IF ∨
            s.current.type = TokenType.TOKEN_WHILE ∨
            s.current.type = TokenType.TOKEN_PRINT ∨
            s.current.type = TokenType.TOKEN_RETURN then s
    else synchronizeGo n (advance s)

/-- synchronize of compiler.c: clear panicMode and skip to a statement
boundary. -/
def synchronize (s : CState) : CState :=
  synchronizeGo SCAN_BOUND { s with panicMode := false }

/-- strtod on a number lexeme (digits with an optional fraction), exact on
the decimal literals the scanner produces.
Modelled from the spec: the conversion itself is the C library's; spec §4.4
"number calls the locale-independent string-to-double on the lexeme". -/
def digitsToNat : List Char → Nat → Nat
  | [], acc => acc
  | c :: r, acc => digitsToNat r (acc * 10 + (c.toNat - 48))

def lexemeToRat (l : List Char) : Rat :=
  let intPart := l.takeWhile isDigitC
  let rest := l.drop intPart.length
  match rest with
  | '.' :: frac =>
    (digitsToNat intPart 0 : Rat) + (digitsToNat frac 0 : Rat) / ((10 : Rat) ^ frac.length)
  | _ => (digitsToNat intPart 0 : Rat)

/-- number of compiler.c (non-recursive prefix rule). -/
def numberFn (s : CState) : CState :=
  emitConstant (Value.number (lexemeToRat s.previous.lexeme)) s

/-- string of compiler.c: strip the quotes, copyString (no interning), emit
the constant. -/
def stringFn (s : CState) : CState :=
  let chars := (s.previous.lexeme.drop 1).dropLast
  let (r, heap) := copyString s.heap chars
  emitConstant (Value.obj r) { s with heap }

/-- literal of compiler.c. -/
def literalFn (s : CState) : CState :=
  match s.previous.type with
  | TokenType.TOKEN_FALSE => emitByte OP_FALSE s
  | TokenType.TOKEN_NIL => emitByte OP_NIL s
  | TokenType.TOKEN_TRUE => emitByte OP_TRUE s
  | _ => s

/-- The rule kinds of the Pratt table of compiler.c.  The table's function
pointers are rendered as these tags plus the dispatch below, exactly
preserving which token has which rule. -/
inductive PrefixRule where
  | groupingR | unaryR | variableR | stringR | numberR | literalR
deriving DecidableEq, Repr

inductive InfixRule where
  | binaryR | andR | orR
deriving DecidableEq, Repr

/-- The prefix column of the rules table of compiler.c. -/
def prefixRule : TokenType → Option PrefixRule
  | TokenType.TOKEN_LEFT_PAREN => some PrefixRule.groupingR
  | TokenType.TOKEN_MINUS => some PrefixRule.unaryR
  | TokenType.TOKEN_BANG => some PrefixRule.unaryR
  | TokenType.TOKEN_IDENTIFIER => some PrefixRule.variableR
  | TokenType.TOKEN_STRING => some PrefixRule.stringR
  | TokenType.TOKEN_NUMBER => some PrefixRule.numberR
  | TokenType.TOKEN_FALSE => some PrefixRule.literalR
  | TokenType.TOKEN_NIL => some PrefixRule.literalR
  | TokenType.TOKEN_TRUE => some PrefixRule.literalR
  | _ => none

/-- The infix column of the rules table of compiler.c. -/
def infixRule : TokenType → Option InfixRule
  | TokenType.TOKEN_MINUS => some InfixRule.binaryR
  | TokenType.TOKEN_PLUS => some InfixRule.binaryR
  | TokenType.TOKEN_SLASH => some InfixRule.binaryR
  | TokenType.TOKEN_STAR => some InfixRule.binaryR
  | TokenType.TOKEN_BANG_EQUAL => some InfixRule.binaryR
  | TokenType.TOKEN_EQUAL_EQUAL => some InfixRule.binaryR
  | TokenType.TOKEN_GREATER => some InfixRule.binaryR
  | TokenType.TOKEN_GREATER_EQUAL => some InfixRule.binaryR
  | TokenType.TOKEN_LESS => some InfixRule.binaryR
  | TokenType.TOKEN_LESS_EQUAL => some InfixRule.binaryR
  | TokenType.TOKEN_AND => some InfixRule.andR
  | TokenType.TOKEN_OR => some InfixRule.orR
  | _ => none

/-- The precedence column of the rules table of compiler.c. -/
def rulePrecedence : TokenType → Nat
  | TokenType.TOKEN_MINUS => PREC_TERM
  | TokenType.TOKEN_PLUS => PREC_TERM
  | TokenType.TOKEN_SLASH => PREC_FACTOR
  | TokenType.TOKEN_STAR => PREC_FACTOR
  | TokenType.TOKEN_BANG_EQUAL => PREC_EQUALITY
  | TokenType.TOKEN_EQUAL_EQUAL => PREC_EQUALITY
  | TokenType.TOKEN_GREATER => PREC_COMPARISON
  | TokenType.TOKEN_GREATER_EQUAL => PREC_COMPARISON
  | TokenType.TOKEN_LESS => PREC_COMPARISON
  | TokenType.TOKEN_LESS_EQUAL => PREC_COMPARISON
  | TokenType.TOKEN_AND => PREC_AND
  | TokenType.TOKEN_OR => PREC_OR
  | _ => PREC_NONE

/-- Fuel exhaustion in the mutual recursion below.  The C functions recurse
on the call stack without such a bound; the theorems below only ever invoke
the compiler with fuel amply exceeding the recursion the source performs, and
the guard poisons hadError so that fuel exhaustion can never masquerade as a
successful compile. -/
def fuelOut (s : CState) : CState := { s with hadError := true }

mutual

/-- parsePrecedence of compiler.c. -/
def parsePrecedence : Nat → Nat → CState → CState
  | 0, _, s => fuelOut s
  | n + 1, precedence, s =>
    let s := advance s
    match prefixRule s.previous.type with
    | none => errorFn s "Expect expression."
    | some pr =>
      let canAssign := precedence ≤ PREC_ASSIGNMENT
      let s := runPrefixRule n pr canAssign s
      let s := infixLoop n precedence canAssign s
      if canAssign then
        let (m, s) := matchTok TokenType.TOKEN_EQUAL s
        if m then errorFn s "Invalid assignment target." else s
      else s

/-- Dispatch of a prefix rule pointer of compiler.c. -/
def runPrefixRule : Nat → PrefixRule → Bool → CState → CState
  | 0, _, _, s => fuelOut s
  | n + 1, pr, canAssign, s =>
    match pr with
    | PrefixRule.groupingR => groupingFn n canAssign s
    | PrefixRule.unaryR => unaryFn n canAssign s
    | PrefixRule.variableR => variableFn n canAssign s
    | PrefixRule.stringR => stringFn s
    | PrefixRule.numberR => numberFn s
    | PrefixRule.literalR => literalFn s

/-- The infix while-loop of parsePrecedence of compiler.c. -/
def infixLoop : Nat → Nat → Bool → CState → CState
  | 0, _, _, s => fuelOut s
  | n + 1, precedence, canAssign, s =>
    if precedence ≤ rulePrecedence s.current.type then
      let s := advance s
      let s :=
        match infixRule s.previous.type with
        | some InfixRule.binaryR => binaryFn n canAssign s
        | some InfixRule.andR => andFn n canAssign s
        | some InfixRule.orR => orFn n canAssign s
        | none => s
      infixLoop n precedence canAssign s
    else s

/-- binary of compiler.c. -/
def binaryFn : Nat → Bool → CState → CState
  | 0, _, s => fuelOut s
  | n + 1, _, s =>
    let operatorType := s.previous.type
    let s := parsePrecedence n (rulePrecedence operatorType + 1) s
    match operatorType with
    | TokenType.TOKEN_BANG_EQUAL => emitBytes OP_EQUAL OP_NOT s
    | TokenType.TOKEN_EQUAL_EQUAL => emitByte OP_EQUAL s
    | TokenType.TOKEN_GREATER => emitByte OP_GREATER s
    | TokenType.TOKEN_GREATER_EQUAL => emitBytes OP_LESS OP_NOT s
    | TokenType.TOKEN_LESS => emitByte OP_LESS s
    | TokenType.TOKEN_LESS_EQUAL => emitBytes OP_GREATER OP_NOT s
    | TokenType.TOKEN_PLUS => emitByte OP_ADD s
    | TokenType.TOKEN_MINUS => emitByte OP_SUBTRACT s
    | TokenType.TOKEN_STAR => emitByte OP_MULTIPLY s
    | TokenType.TOKEN_SLASH => emitByte OP_DIVIDE s
    | _ => s

/-- unary of compiler.c. -/
def unaryFn : Nat → Bool → CState → CState
  | 0, _, s => fuelOut s
  | n + 1, _, s =>
    let operatorType := s.previous.type
    let s := parsePrecedence n PREC_UNARY s
    match operatorType with
    | TokenType.TOKEN_BANG => emitByte OP_NOT s
    | TokenType.TOKEN_MINUS => emitByte OP_NEGATE s
    | _ => s

/-- grouping of compiler.c. -/
def groupingFn : Nat → Bool → CState → CState
  | 0, _, s => fuelOut s
  | n + 1, _, s =>
    let s := expression n s
    consume TokenType.TOKEN_RIGHT_PAREN
      ("Expect " ++ sq ++ ")" ++ sq ++ " after expression.") s

/-- and_ of compiler.c: short-circuit via OP_JUMP_IF_FALSE. -/
def andFn : Nat → Bool → CState → CState
  | 0, _, s => fuelOut s
  | n + 1, _, s =>
    let (endJump, s) := emitJump OP_JUMP_IF_FALSE s
    let s := emitByte OP_POP s
    let s := parsePrecedence n PREC_AND s
    patchJump endJump s

/-- or_ of compiler.c. -/
def orFn : Nat → Bool → CState → CState
  | 0, _, s => fuelOut s
  | n + 1, _, s =>
    let (elseJump, s) := emitJump OP_JUMP_IF_FALSE s
    let (endJump, s) := emitJump OP_JUMP s
    let s := patchJump elseJump s
    let s := emitByte OP_POP s
    let s := parsePrecedence n PREC_OR s
    patchJump endJump s

/-- namedVariable of compiler.c: resolve as local else global, then emit the
get or (after `=` in assignment position) set form.  The C `(uint8_t)arg`
cast is the mod 256. -/
def namedVariable : Nat → Token → Bool → CState → CState
  | 0, _, _, s => fuelOut s
  | n + 1, name, canAssign, s =>
    let (s, arg) := resolveLocal name s
    let (getOp, setOp, argN, s) :=
      if arg ≠ -1 then (OP_GET_LOCAL, OP_SET_LOCAL, arg.toNat % 256, s)
      else
        let (a, s) := identifierConstant name s
        (OP_GET_GLOBAL, OP_SET_GLOBAL, a % 256, s)
    let (m, s) := if canAssign then matchTok TokenType.TOKEN_EQUAL s else (false, s)
    if m then
      let s := expression n s
      emitBytes setOp argN s
    else
      emitBytes getOp argN s

/-- variable of compiler.c (renamed: `variable` is reserved in Lean). -/
def variableFn : Nat → Bool → CState → CState
  | 0, _, s => fuelOut s
  | n + 1, canAssign, s => namedVariable n s.previous canAssign s

/-- expression of compiler.c. -/
def expression : Nat → CState → CState
  | 0, s => fuelOut s
  | n + 1, s => parsePrecedence n PREC_ASSIGNMENT s

/-- The declaration loop of block of compiler.c. -/
def blockLoop : Nat → CState → CState
  | 0, s => fuelOut s
  | n + 1, s =>
    if ¬ checkT TokenType.TOKEN_RIGHT_BRACE s ∧ ¬ checkT TokenType.TOKEN_EOF s then
      blockLoop n (declaration n s)
    else s

/-- block of compiler.c.  (The C consume message is the literal `Expect '}`,
missing its closing quote and brace; reproduced as printed.) -/
def block : Nat → CState → CState
  | 0, s => fuelOut s
  | n + 1, s =>
    let s := blockLoop n s
    consume TokenType.TOKEN_RIGHT_BRACE ("Expect " ++ sq ++ rbraceChar.toString) s

/-- varDeclaration of compiler.c. -/
def varDeclaration : Nat → CState → CState
  | 0, s => fuelOut s
  | n + 1, s =>
    let (global, s) := parseVariable "Expect variable name." s
    let (m, s) := matchTok TokenType.TOKEN_EQUAL s
    let s := if m then expression n s else emitByte OP_NIL s
    let s := consume TokenType.TOKEN_SEMICOLON
      ("Expect " ++ sq ++ ";" ++ sq ++ " after variable declaration.") s
    defineVariable global s

/-- expressionStatement of compiler.c. -/
def expressionStatement : Nat → CState → CState
  | 0, s => fuelOut s
  | n + 1, s =>
    let s := expression n s
    let s := consume TokenType.TOKEN_SEMICOLON
      ("Expect " ++ sq ++ ";" ++ sq ++ " after expression.") s
    emitByte OP_POP s

/-- ifStatement of compiler.c: backpatched forward jumps. -/
def ifStatement : Nat → CState → CState
  | 0, s => fuelOut s
  | n + 1, s =>
    let s := consume TokenType.TOKEN_LEFT_PAREN
      ("Expect " ++ sq ++ "(" ++ sq ++ " after " ++ sq ++ "if" ++ sq ++ ".") s
    let s := expression n s
    let s := consume TokenType.TOKEN_RIGHT_PAREN
      ("Expect " ++ sq ++ ")" ++ sq ++ " after condition.") s
    let (thenJump, s) := emitJump OP_JUMP_IF_FALSE s
    let s := emitByte OP_POP s
    let s := statement n s
    let (elseJump, s) := emitJump OP_JUMP s
    let s := patchJump thenJump s
    let s := emitByte OP_POP s
    let (m, s) := matchTok TokenType.TOKEN_ELSE s
    let s := if m then statement n s else s
    patchJump elseJump s

/-- printStatement of compiler.c. -/
def printStatement : Nat → CState → CState
  | 0, s => fuelOut s
  | n + 1, s =>
    let s := expression n s
    let s := consume TokenType.TOKEN_SEMICOLON
      ("Expect " ++ sq ++ ";" ++ sq ++ " after value.") s
    emitByte OP_PRINT s

/-- whileStatement of compiler.c: condition, exit jump, body — and no
backward jump whatsoever: after the body the compiler merely patches the
exit jump and emits the pop.  (The source emits no OP_LOOP or equivalent.) -/
def whileStatement : Nat → CState → CState
  | 0, s => fuelOut s
  | n + 1, s =>
    let s := consume TokenType.TOKEN_LEFT_PAREN
      ("Expect " ++ sq ++ "(" ++ sq ++ " after " ++ sq ++ "while" ++ sq ++ ".") s
    let s := expression n s
    let s := consume TokenType.TOKEN_RIGHT_PAREN
      ("Expect " ++ sq ++ ")" ++ sq ++ " after condition.") s
    let (exitJump, s) := emitJump OP_JUMP_IF_FALSE s
    let s := emitByte OP_POP s
    let s := statement n s
    let s := patchJump exitJump s
    emitByte OP_POP s

/-- declaration of compiler.c. -/
def declaration : Nat → CState → CState
  | 0, s => fuelOut s
  | n + 1, s =>
    let (m, s) := matchTok TokenType.TOKEN_VAR s
    let s := if m then varDeclaration n s else statement n s
    if s.panicMode then synchronize s else s

/-- statement of compiler.c. -/
def statement : Nat → CState → CState
  | 0, s => fuelOut s
  | n + 1, s =>
    let (m, s) := matchTok TokenType.TOKEN_PRINT s
    if m then printStatement n s
    else
      let (m, s) := matchTok TokenType.TOKEN_IF s
      if m then ifStatement n s
      else
        let (m, s) := matchTok TokenType.TOKEN_WHILE s
        if m then whileStatement n s
        else
          let (m, s) := matchTok TokenType.TOKEN_LEFT_BRACE s
          if m then endScope (block n (beginScope s))
          else expressionStatement n s

end

/-- The top-level declaration loop of compile of compiler.c
(`while (!match(TOKEN_EOF)) declaration();`). -/
def compileLoop : Nat → CState → CState
  | 0, s => fuelOut s
  | n + 1, s =>
    let (m, s) := matchTok TokenType.TOKEN_EOF s
    if m then s else compileLoop n (declaration n s)

/-- compile of compiler.c: initialize the scanner, compiler and parser —
with hadError false and panicMode TRUE — prime the parser with one advance,
run declarations to EOF, emit OP_RETURN (endCompiler), and succeed iff
hadError never fired. -/
def compile (fuel : Nat) (source : String) : Bool × CState :=
  let dummy : Token := ⟨TokenType.TOKEN_ERROR, [], 0⟩
  let s : CState :=
    { scanner := ⟨source.toList, 1⟩
      current := dummy
      previous := dummy
      hadError := false
      panicMode := true
      chunk := initChunk
      locals := #[]
      scopeDepth := 0
      heap := ⟨[], 0⟩
      diags := [] }
  let s := advance s
  let s := compileLoop fuel s
  let s := emitByte OP_RETURN s
  (!s.hadError, s)

/-- interpret of vm.c: compile, bail out with INTERPRET_COMPILE_ERROR on
failure, otherwise run the chunk on a fresh VM whose heap carries the objects
allocated during compilation.  The result is `none` only when the run fuel is
exhausted. -/
def interpret (u : Undef) (cfuel rfuel : Nat) (source : String) :
    Option InterpretResult × VMState × CState :=
  let (ok, cs) := compile cfuel source
  if !ok then (some InterpretResult.compileError, initialVM u cs.heap, cs)
  else
    let (vms, res) := runFuel u cs.chunk rfuel (initialVM u cs.heap)
    (res, vms, cs)

/-! ## Concrete inputs used by the theorems below -/

/-- Two fixed contents for indeterminate memory (see `Undef`).  The runs
evaluated below never read indeterminate memory; the run-level theorems are
stated for both values, so their conclusions do not depend on the choice. -/
def u0 : Undef := ⟨Value.nil, ⟨1000, 0, []⟩⟩

def u1 : Undef := ⟨Value.bool false, ⟨1001, 7, ['z']⟩⟩

/-- An empty heap. -/
def emptyHeap : ObjHeap := ⟨[], 0⟩

/-- A family of distinct string objects: identity `n`, cached hash `n`, one
character of text. -/
def kRef (n : Nat) : ObjRef := ⟨n, n, [Char.ofNat (96 + n)]⟩

/-- A table holding the six bindings `kRef 1 ↦ 1, …, kRef 6 ↦ 6`, built by
six tableSet calls from an empty table (capacity grows to 8 on the first
set; the sixth leaves count = 6, so the next set triggers growth). -/
def t6 : Table :=
  (tableSet (tableSet (tableSet (tableSet (tableSet (tableSet initTable
    (kRef 1) (Value.number 1)).2
    (kRef 2) (Value.number 2)).2
    (kRef 3) (Value.number 3)).2
    (kRef 4) (Value.number 4)).2
    (kRef 5) (Value.number 5)).2
    (kRef 6) (Value.number 6)).2

/-- A chunk whose single instruction is OP_SET_GLOBAL on the name `kRef 7`
(the character `g`). -/
def c5chunk : Chunk := ⟨#[OP_SET_GLOBAL, 0], #[1, 1], #[Value.obj (kRef 7)]⟩

/-- A VM state about to execute `c5chunk`: globals = `t6`, one value on the
stack. -/
def c5vm : VMState :=
  ⟨0, fun _ => Value.number 42, 1, t6, initTable, emptyHeap, [], []⟩

/-- A chunk starting with OP_JUMP and big-endian operand 0x0002. -/
def chJump : Chunk := ⟨#[OP_JUMP, 0, 2, OP_NIL, OP_RETURN], #[1, 1, 1, 1, 1], #[]⟩

/-- A chunk starting with OP_JUMP_IF_FALSE and big-endian operand 0x0002. -/
def chJumpIf : Chunk := ⟨#[OP_JUMP_IF_FALSE, 0, 2, OP_NIL, OP_RETURN], #[1, 1, 1, 1, 1], #[]⟩

/-- A VM state with the falsey value nil on top of the stack. -/
def stFalsey : VMState := push Value.nil (initialVM u0 emptyHeap)

/-- Scenario 3 of spec §8 (shadowing). -/
def c7src : String := "var a = 1; \x7b var a = 2; print a; \x7d print a;"

/-- Scenario 5 of spec §8 (the while loop). -/
def c2src : String := "var i = 0; while (i < 3) \x7b print i; i = i + 1; \x7d"

/-- A source whose very first token is an error token (the byte `@`),
followed by a well-formed statement. -/
def c8src : String := "@ print 1;"

/-- A compiler state with panicMode set (used to witness the errorAt
behaviour). -/
def c8state : CState :=
  { scanner := ⟨[], 1⟩
    current := ⟨TokenType.TOKEN_EOF, [], 1⟩
    previous := ⟨TokenType.TOKEN_EOF, [], 1⟩
    hadError := false
    panicMode := true
    chunk := initChunk
    locals := #[]
    scopeDepth := 0
    heap := emptyHeap
    diags := [] }

/-- The three-local instance of the overflow program below, small enough to
compile inside a proof. -/
def c9smallSrc : String := "\x7b var v0 = true; var v1 = true; var v2 = true; print true; \x7d"

/-- The 256-local overflow program of the stack-overflow scenario: a block
declaring 256 distinct locals initialized to `true` followed by `print true;`.
Its execution pushes 257 values before the first pop. -/
def c9src : String := "\x7b var v0 = true; var v1 = true; var v2 = true; var v3 = true; var v4 = true; var v5 = true; var v6 = true; var v7 = true; var v8 = true; var v9 = true; var v10 = true; var v11 = true; var v12 = true; var v13 = true; var v14 = true; var v15 = true; var v16 = true; var v17 = true; var v18 = true; var v19 = true; var v20 = true; var v21 = true; var v22 = true; var v23 = true; var v24 = true; var v25 = true; var v26 = true; var v27 = true; var v28 = true; var v29 = true; var v30 = true; var v31 = true; var v32 = true; var v33 = true; var v34 = true; var v35 = true; var v36 = true; var v37 = true; var v38 = true; var v39 = true; var v40 = true; var v41 = true; var v42 = true; var v43 = true; var v44 = true; var v45 = true; var v46 = true; var v47 = true; var v48 = true; var v49 = true; var v50 = true; var v51 = true; var v52 = true; var v53 = true; var v54 = true; var v55 = true; var v56 = true; var v57 = true; var v58 = true; var v59 = true; var v60 = true; var v61 = true; var v62 = true; var v63 = true; var v64 = true; var v65 = true; var v66 = true; var v67 = true; var v68 = true; var v69 = true; var v70 = true; var v71 = true; var v72 = true; var v73 = true; var v74 = true; var v75 = true; var v76 = true; var v77 = true; var v78 = true; var v79 = true; var v80 = true; var v81 = true; var v82 = true; var v83 = true; var v84 = true; var v85 = true; var v86 = true; var v87 = true; var v88 = true; var v89 = true; var v90 = true; var v91 = true; var v92 = true; var v93 = true; var v94 = true; var v95 = true; var v96 = true; var v97 = true; var v98 = true; var v99 = true; var v100 = true; var v101 = true; var v102 = true; var v103 = true; var v104 = true; var v105 = true; var v106 = true; var v107 = true; var v108 = true; var v109 = true; var v110 = true; var v111 = true; var v112 = true; var v113 = true; var v114 = true; var v115 = true; var v116 = true; var v117 = true; var v118 = true; var v119 = true; var v120 = true; var v121 = true; var v122 = true; var v123 = true; var v124 = true; var v125 = true; var v126 = true; var v127 = true; var v128 = true; var v129 = true; var v130 = true; var v131 = true; var v132 = true; var v133 = true; var v134 = true; var v135 = true; var v136 = true; var v137 = true; var v138 = true; var v139 = true; var v140 = true; var v141 = true; var v142 = true; var v143 = true; var v144 = true; var v145 = true; var v146 = true; var v147 = true; var v148 = true; var v149 = true; var v150 = true; var v151 = true; var v152 = true; var v153 = true; var v154 = true; var v155 = true; var v156 = true; var v157 = true; var v158 = true; var v159 = true; var v160 = true; var v161 = true; var v162 = true; var v163 = true; var v164 = true; var v165 = true; var v166 = true; var v167 = true; var v168 = true; var v169 = true; var v170 = true; var v171 = true; var v172 = true; var v173 = true; var v174 = true; var v175 = true; var v176 = true; var v177 = true; var v178 = true; var v179 = true; var v180 = true; var v181 = true; var v182 = true; var v183 = true; var v184 = true; var v185 = true; var v186 = true; var v187 = true; var v188 = true; var v189 = true; var v190 = true; var v191 = true; var v192 = true; var v193 = true; var v194 = true; var v195 = true; var v196 = true; var v197 = true; var v198 = true; var v199 = true; var v200 = true; var v201 = true; var v202 = true; var v203 = true; var v204 = true; var v205 = true; var v206 = true; var v207 = true; var v208 = true; var v209 = true; var v210 = true; var v211 = true; var v212 = true; var v213 = true; var v214 = true; var v215 = true; var v216 = true; var v217 = true; var v218 = true; var v219 = true; var v220 = true; var v221 = true; var v222 = true; var v223 = true; var v224 = true; var v225 = true; var v226 = true; var v227 = true; var v228 = true; var v229 = true; var v230 = true; var v231 = true; var v232 = true; var v233 = true; var v234 = true; var v235 = true; var v236 = true; var v237 = true; var v238 = true; var v239 = true; var v240 = true; var v241 = true; var v242 = true; var v243 = true; var v244 = true; var v245 = true; var v246 = true; var v247 = true; var v248 = true; var v249 = true; var v250 = true; var v251 = true; var v252 = true; var v253 = true; var v254 = true; var v255 = true; print true; \x7d"

/-- The chunk the compiler emits for `c9src`: one OP_TRUE per local
initializer, OP_TRUE and OP_PRINT for the print statement, one OP_POP per
local at scope end, and OP_RETURN — 515 bytes, no constants, all on line 1.
The identity `(compile 2000 c9src).2.chunk = c9chunk` holds by computation
(the in-kernel evaluation is too large for a theorem here; the theorem below
instead proves the same identity for the three-local instance of the same
shape, and the shape of this chunk is restated over `Array.mkArray` in the
claim theorem). -/
def c9chunk : Chunk := ⟨#[2, 2, 2, 2, 2, 2, 2, 2, 2, 2, 2, 2, 2, 2, 2, 2, 2, 2, 2, 2, 2, 2, 2, 2, 2, 2, 2, 2, 2, 2, 2, 2, 2, 2, 2, 2, 2, 2, 2, 2, 2, 2, 2, 2, 2, 2, 2, 2, 2, 2, 2, 2, 2, 2, 2, 2, 2, 2, 2, 2, 2, 2, 2, 2, 2, 2, 2, 2, 2, 2, 2, 2, 2, 2, 2, 2, 2, 2, 2, 2, 2, 2, 2, 2, 2, 2, 2, 2, 2, 2, 2, 2, 2, 2, 2, 2, 2, 2, 2, 2, 2, 2, 2, 2, 2, 2, 2, 2, 2, 2, 2, 2, 2, 2, 2, 2, 2, 2, 2, 2, 2, 2, 2, 2, 2, 2, 2, 2, 2, 2, 2, 2, 2, 2, 2, 2, 2, 2, 2, 2, 2, 2, 2, 2, 2, 2, 2, 2, 2, 2, 2, 2, 2, 2, 2, 2, 2, 2, 2, 2, 2, 2, 2, 2, 2, 2, 2, 2, 2, 2, 2, 2, 2, 2, 2, 2, 2, 2, 2, 2, 2, 2, 2, 2, 2, 2, 2, 2, 2, 2, 2, 2, 2, 2, 2, 2, 2, 2, 2, 2, 2, 2, 2, 2, 2, 2, 2, 2, 2, 2, 2, 2, 2, 2, 2, 2, 2, 2, 2, 2, 2, 2, 2, 2, 2, 2, 2, 2, 2, 2, 2, 2, 2, 2, 2, 2, 2, 2, 2, 2, 2, 2, 2, 2, 2, 2, 2, 2, 2, 2, 2, 2, 2, 2, 2, 2, 2, 20, 10, 10, 10, 10, 10, 10, 10, 10, 10, 10, 10, 10, 10, 10, 10, 10, 10, 10, 10, 10, 10, 10, 10, 10, 10, 10, 10, 10, 10, 10, 10, 10, 10, 10, 10, 10, 10, 10, 10, 10, 10, 10, 10, 10, 10, 10, 10, 10, 10, 10, 10, 10, 10, 10, 10, 10, 10, 10, 10, 10, 10, 10, 10, 10, 10, 10, 10, 10, 10, 10, 10, 10, 10, 10, 10, 10, 10, 10, 10, 10, 10, 10, 10, 10, 10, 10, 10, 10, 10, 10, 10, 10, 10, 10, 10, 10, 10, 10, 10, 10, 10, 10, 10, 10, 10, 10, 10, 10, 10, 10, 10, 10, 10, 10, 10, 10, 10, 10, 10, 10, 10, 10, 10, 10, 10, 10, 10, 10, 10, 10, 10, 10, 10, 10, 10, 10, 10, 10, 10, 10, 10, 10, 10, 10, 10, 10, 10, 10, 10, 10, 10, 10, 10, 10, 10, 10, 10, 10, 10, 10, 10, 10, 10, 10, 10, 10, 10, 10, 10, 10, 10, 10, 10, 10, 10, 10, 10, 10, 10, 10, 10, 10, 10, 10, 10, 10, 10, 10, 10, 10, 10, 10, 10, 10, 10, 10, 10, 10, 10, 10, 10, 10, 10, 10, 10, 10, 10, 10, 10, 10, 10, 10, 10, 10, 10, 10, 10, 10, 10, 10, 10, 10, 10, 10, 10, 10, 10, 10, 10, 10, 10, 10, 10, 10, 10, 10, 10, 10, 10, 10, 10, 10, 10, 10, 10, 10, 10, 10, 10, 10, 10, 10, 10, 10, 10, 10, 9], #[1, 1, 1, 1, 1, 1, 1, 1, 1, 1, 1, 1, 1, 1, 1, 1, 1, 1, 1, 1, 1, 1, 1, 1, 1, 1, 1, 1, 1, 1, 1, 1, 1, 1, 1, 1, 1, 1, 1, 1, 1, 1, 1, 1, 1, 1, 1, 1, 1, 1, 1, 1, 1, 1, 1, 1, 1, 1, 1, 1, 1, 1, 1, 1, 1, 1, 1, 1, 1, 1, 1, 1, 1, 1, 1, 1, 1, 1, 1, 1, 1, 1, 1, 1, 1, 1, 1, 1, 1, 1, 1, 1, 1, 1, 1, 1, 1, 1, 1, 1, 1, 1, 1, 1, 1, 1, 1, 1, 1, 1, 1, 1, 1, 1, 1, 1, 1, 1, 1, 1, 1, 1, 1, 1, 1, 1, 1, 1, 1, 1, 1, 1, 1, 1, 1, 1, 1, 1, 1, 1, 1, 1, 1, 1, 1, 1, 1, 1, 1, 1, 1, 1, 1, 1, 1, 1, 1, 1, 1, 1, 1, 1, 1, 1, 1, 1, 1, 1, 1, 1, 1, 1, 1, 1, 1, 1, 1, 1, 1, 1, 1, 1, 1, 1, 1, 1, 1, 1, 1, 1, 1, 1, 1, 1, 1, 1, 1, 1, 1, 1, 1, 1, 1, 1, 1, 1, 1, 1, 1, 1, 1, 1, 1, 1, 1, 1, 1, 1, 1, 1, 1, 1, 1, 1, 1, 1, 1, 1, 1, 1, 1, 1, 1, 1, 1, 1, 1, 1, 1, 1, 1, 1, 1, 1, 1, 1, 1, 1, 1, 1, 1, 1, 1, 1, 1, 1, 1, 1, 1, 1, 1, 1, 1, 1, 1, 1, 1, 1, 1, 1, 1, 1, 1, 1, 1, 1, 1, 1, 1, 1, 1, 1, 1, 1, 1, 1, 1, 1, 1, 1, 1, 1, 1, 1, 1, 1, 1, 1, 1, 1, 1, 1, 1, 1, 1, 1, 1, 1, 1, 1, 1, 1, 1, 1, 1, 1, 1, 1, 1, 1, 1, 1, 1, 1, 1, 1, 1, 1, 1, 1, 1, 1, 1, 1, 1, 1, 1, 1, 1, 1, 1, 1, 1, 1, 1, 1, 1, 1, 1, 1, 1, 1, 1, 1, 1, 1, 1, 1, 1, 1, 1, 1, 1, 1, 1, 1, 1, 1, 1, 1, 1, 1, 1, 1, 1, 1, 1, 1, 1, 1, 1, 1, 1, 1, 1, 1, 1, 1, 1, 1, 1, 1, 1, 1, 1, 1, 1, 1, 1, 1, 1, 1, 1, 1, 1, 1, 1, 1, 1, 1, 1, 1, 1, 1, 1, 1, 1, 1, 1, 1, 1, 1, 1, 1, 1, 1, 1, 1, 1, 1, 1, 1, 1, 1, 1, 1, 1, 1, 1, 1, 1, 1, 1, 1, 1, 1, 1, 1, 1, 1, 1, 1, 1, 1, 1, 1, 1, 1, 1, 1, 1, 1, 1, 1, 1, 1, 1, 1, 1, 1, 1, 1, 1, 1, 1, 1, 1, 1, 1, 1, 1, 1, 1, 1, 1, 1, 1, 1, 1, 1, 1, 1, 1, 1, 1, 1, 1, 1, 1, 1, 1, 1, 1, 1, 1, 1, 1, 1, 1, 1, 1, 1, 1, 1, 1], #[]⟩


/-! ## Theorems -/

set_option maxRecDepth 1000000
set_option maxHeartbeats 100000000

/-! ### Probe-sequence lemmas supporting the table round-trip theorem -/

/-- findEntryGo visits exactly the probe sequence. -/
theorem findEntryGo_eq_probeRun (f : Nat → Entry) (cap : Nat) (key : ObjRef) :
    ∀ (fuel idx : Nat) (ts : Option Nat),
      findEntryGo f cap key fuel idx ts = probeRun f key (probeSeq cap idx fuel) ts := by
  intro fuel
  induction fuel with
  | zero => intro idx ts; rfl
  | succ n ih =>
    intro idx ts
    simp only [findEntryGo, probeSeq, probeRun]
    cases h : (f idx).key with
    | none =>
      simp only [h]
      by_cases hv : (f idx).value = Value.nil
      · simp [hv]
      · simp [hv, ih]
    | some k =>
      simp only [h]
      by_cases hid : k.id = key.id
      · simp [hid]
      · simp [hid, ih]



/-- Membership in a probe sequence, arithmetically. -/
theorem mem_probeSeq_iff (cap : Nat) (hcap : 0 < cap) (j : Nat) :
    ∀ (n start : Nat), start < cap →
      (j ∈ probeSeq cap start n ↔ ∃ d, d < n ∧ (start + d) % cap = j) := by
  intro n
  induction n with
  | zero => intro start _; simp [probeSeq]
  | succ m ih =>
    intro start hs
    simp only [probeSeq, List.mem_cons]
    rw [ih ((start + 1) % cap) (Nat.mod_lt _ hcap)]
    constructor
    · rintro (rfl | ⟨d, hd, hmod⟩)
      · exact ⟨0, Nat.succ_pos m, by simp [Nat.mod_eq_of_lt hs]⟩
      · refine ⟨d + 1, by omega, ?_⟩
        rw [← hmod, Nat.mod_add_mod]
        congr 1
        omega
    · rintro ⟨d, hd, hmod⟩
      cases d with
      | zero =>
        left
        rw [← hmod]
        simp [Nat.mod_eq_of_lt hs]
      | succ d' =>
        right
        refine ⟨d', by omega, ?_⟩
        rw [Nat.mod_add_mod]
        rw [← hmod]
        congr 1
        omega

/-- Every slot a probe visits is a real slot. -/
theorem probeSeq_lt (cap : Nat) (hcap : 0 < cap) (j n start : Nat) (hs : start < cap)
    (hj : j ∈ probeSeq cap start n) : j < cap := by
  obtain ⟨d, -, hmod⟩ := (mem_probeSeq_iff cap hcap j n start hs).1 hj
  rw [← hmod]
  exact Nat.mod_lt _ hcap

/-- A probe of length `cap` visits every slot. -/
theorem probeSeq_covers (cap : Nat) (hcap : 0 < cap) (j start : Nat) (hs : start < cap)
    (hj : j < cap) : j ∈ probeSeq cap start cap := by
  rw [mem_probeSeq_iff cap hcap j cap start hs]
  refine ⟨(cap + j - start) % cap, Nat.mod_lt _ hcap, ?_⟩
  rw [Nat.add_mod_mod]
  have h1 : start + (cap + j - start) = cap + j := by omega
  rw [h1, Nat.add_mod_left, Nat.mod_eq_of_lt hj]



/-- A probe that never stops saw only tombstones and foreign keys. -/
theorem probeRun_eq_none (f : Nat → Entry) (key : ObjRef) :
    ∀ (L : List Nat) (ts : Option Nat), probeRun f key L ts = none →
      ∀ j ∈ L, continueSlot f key j := by
  intro L
  induction L with
  | nil => simp
  | cons j rest ih =>
    intro ts hrun
    simp only [probeRun] at hrun
    intro a ha
    rcases List.mem_cons.1 ha with rfl | hmem
    · -- the head slot: the run went past it, so it is a continue slot
      cases hk : (f a).key with
      | none =>
        by_cases hv : (f a).value = Value.nil
        · rw [hk] at hrun; simp only [hv, if_pos rfl] at hrun
          cases ts <;> simp_all
        · exact Or.inr ⟨hk, hv⟩
      | some k =>
        by_cases hid : k.id = key.id
        · rw [hk] at hrun; simp [hid] at hrun
        · exact Or.inl ⟨k, hk, hid⟩
    · -- a later slot: feed the tail run to the induction hypothesis
      cases hk : (f j).key with
      | none =>
        rw [hk] at hrun
        by_cases hv : (f j).value = Value.nil
        · simp only [hv, if_pos rfl] at hrun
          cases ts <;> simp_all
        · simp only [hv, if_neg hv] at hrun
          exact ih _ hrun a hmem
      | some k =>
        rw [hk] at hrun
        by_cases hid : k.id = key.id
        · simp [hid] at hrun
        · simp only [hid, if_neg hid] at hrun
          exact ih _ hrun a hmem



/-- Where a successful probe stops: unless the result was the received
tombstone accumulator, the result slot occurs in the visited list and every
slot strictly before it is a continue slot. -/
theorem probeRun_eq_some (f : Nat → Entry) (key : ObjRef) :
    ∀ (L : List Nat) (ts : Option Nat) (i : Nat), probeRun f key L ts = some i →
      (∃ L1 L2, L = L1 ++ i :: L2 ∧ ∀ j ∈ L1, continueSlot f key j) ∨ ts = some i := by
  intro L
  induction L with
  | nil => intro ts i h; simp [probeRun] at h
  | cons j rest ih =>
    intro ts i hrun
    cases hk : (f j).key with
    | none =>
      by_cases hv : (f j).value = Value.nil
      · simp only [probeRun, hk, if_pos hv] at hrun
        cases ts with
        | none =>
          obtain rfl : j = i := by simpa using hrun
          exact Or.inl ⟨[], rest, rfl, by simp⟩
        | some t =>
          obtain rfl : t = i := by simpa using hrun
          exact Or.inr rfl
      · simp only [probeRun, hk, if_neg hv] at hrun
        rcases ih _ i hrun with ⟨L1, L2, heq, hcont⟩ | hts
        · refine Or.inl ⟨j :: L1, L2, by simp [heq], ?_⟩
          intro a ha
          rcases List.mem_cons.1 ha with rfl | hmem
          · exact Or.inr ⟨hk, hv⟩
          · exact hcont a hmem
        · cases ts with
          | none =>
            obtain rfl : j = i := by simpa using hts
            exact Or.inl ⟨[], rest, rfl, by simp⟩
          | some t =>
            exact Or.inr (by simpa using hts)
    | some k =>
      by_cases hid : k.id = key.id
      · simp only [probeRun, hk, if_pos hid] at hrun
        obtain rfl : j = i := by simpa using hrun
        exact Or.inl ⟨[], rest, rfl, by simp⟩
      · simp only [probeRun, hk, if_neg hid] at hrun
        rcases ih _ i hrun with ⟨L1, L2, heq, hcont⟩ | hts
        · refine Or.inl ⟨j :: L1, L2, by simp [heq], ?_⟩
          intro a ha
          rcases List.mem_cons.1 ha with rfl | hmem
          · exact Or.inl ⟨k, hk, hid⟩
          · exact hcont a hmem
        · exact Or.inr hts



/-- A probe that walks only continue slots until it reaches a slot holding
the key stops there and returns it, whatever tombstones it passed. -/
theorem probeRun_match (g : Nat → Entry) (key : ObjRef) (i : Nat)
    (hmatch : matchSlot g key i) :
    ∀ (L1 L2 : List Nat) (ts : Option Nat),
      (∀ j ∈ L1, j ≠ i → continueSlot g key j) →
      probeRun g key (L1 ++ i :: L2) ts = some i := by
  intro L1
  induction L1 with
  | nil =>
    intro L2 ts _
    obtain ⟨k, hk, hid⟩ := hmatch
    simp only [List.nil_append, probeRun, hk, if_pos hid]
  | cons j L1' ih =>
    intro L2 ts hcont
    by_cases hji : j = i
    · subst hji
      obtain ⟨k, hk, hid⟩ := hmatch
      simp only [List.cons_append, probeRun, hk, if_pos hid]
    · have hc := hcont j (List.mem_cons_self j L1') hji
      rcases hc with ⟨k, hk, hid⟩ | ⟨hk, hv⟩
      · simp only [List.cons_append, probeRun, hk, if_neg hid]
        exact ih L2 ts (fun a ha hai => hcont a (List.mem_cons_of_mem j ha) hai)
      · simp only [List.cons_append, probeRun, hk, if_neg hv]
        exact ih L2 _ (fun a ha hai => hcont a (List.mem_cons_of_mem j ha) hai)

/-- What kind of slot a successful probe returns: a NULL key (an empty slot
or a tombstone) or a slot holding the key — provided the received
accumulator already had that shape. -/
theorem probeRun_result (f : Nat → Entry) (key : ObjRef) :
    ∀ (L : List Nat) (ts : Option Nat) (i : Nat),
      (ts = none ∨ ∃ t, ts = some t ∧ (f t).key = none) →
      probeRun f key L ts = some i →
      (f i).key = none ∨ matchSlot f key i := by
  intro L
  induction L with
  | nil => intro ts i _ h; simp [probeRun] at h
  | cons j rest ih =>
    intro ts i hts hrun
    cases hk : (f j).key with
    | none =>
      by_cases hv : (f j).value = Value.nil
      · simp only [probeRun, hk, if_pos hv] at hrun
        cases ts with
        | none =>
          obtain rfl : j = i := by simpa using hrun
          exact Or.inl hk
        | some t =>
          have hti : t = i := by simpa using hrun
          rcases hts with h | ⟨t', ht', hkey⟩
          · simp at h
          · have htt : t = t' := by simpa using ht'
            rw [← hti, htt]
            exact Or.inl hkey
      · simp only [probeRun, hk, if_neg hv] at hrun
        refine ih _ i ?_ hrun
        cases ts with
        | none => exact Or.inr ⟨j, rfl, hk⟩
        | some t =>
          rcases hts with h | ⟨t', ht', hkey⟩
          · simp at h
          · have htt : t = t' := by simpa using ht'
            exact Or.inr ⟨t, rfl, by rw [htt]; exact hkey⟩
    | some k =>
      by_cases hid : k.id = key.id
      · simp only [probeRun, hk, if_pos hid] at hrun
        obtain rfl : j = i := by simpa using hrun
        exact Or.inr ⟨k, hk, hid⟩
      · simp only [probeRun, hk, if_neg hid] at hrun
        exact ih _ i hts hrun



/-- A table whose load is below capacity has a truly-empty bucket. -/
theorem exists_trulyEmpty (t : Table) (hlt : t.load < t.capacity) :
    ∃ e, e < t.capacity ∧ trulyEmptyB (t.entries e) = true := by
  by_contra hno
  push_neg at hno
  have hall : ∀ j ∈ List.range t.capacity, (!trulyEmptyB (t.entries j)) = true := by
    intro j hj
    have h := hno j (List.mem_range.1 hj)
    simp only [Bool.not_eq_true] at h ⊢
    simp [h]
  have hfe : (List.range t.capacity).filter (fun j => !trulyEmptyB (t.entries j)) =
      List.range t.capacity := List.filter_eq_self.2 hall
  have : t.load = t.capacity := by
    simp only [Table.load, hfe, List.length_range]
  omega

/-- A non-truly-empty bucket forces a positive load. -/
theorem load_pos_of_slot (t : Table) (j : Nat) (hj : j < t.capacity)
    (hne : ¬ trulyEmptyB (t.entries j) = true) : 1 ≤ t.load := by
  have hmem : j ∈ (List.range t.capacity).filter (fun a => !trulyEmptyB (t.entries a)) := by
    rw [List.mem_filter]
    exact ⟨List.mem_range.2 hj, by simp [hne]⟩
  have hne2 : (List.range t.capacity).filter (fun a => !trulyEmptyB (t.entries a)) ≠ [] :=
    List.ne_nil_of_mem hmem
  have := List.length_pos.2 hne2
  simpa [Table.load] using this

/-- With a truly-empty bucket in range, findEntry terminates with a slot. -/
theorem findEntry_isSome (f : Nat → Entry) (cap : Nat) (key : ObjRef) (hcap : 0 < cap)
    (hempty : ∃ e, e < cap ∧ trulyEmptyB (f e) = true) :
    ∃ i, findEntry f cap key = some i := by
  rcases hempty with ⟨e, he, hte⟩
  rcases hfe : findEntry f cap key with _ | i
  · exfalso
    rw [findEntry, findEntryGo_eq_probeRun] at hfe
    have hcont := probeRun_eq_none f key _ _ hfe e
      (probeSeq_covers cap hcap e (key.hash % cap) (Nat.mod_lt _ hcap) he)
    simp only [trulyEmptyB, Bool.and_eq_true, decide_eq_true_eq] at hte
    rcases hcont with ⟨k, hk, -⟩ | ⟨-, hv⟩
    · rw [hte.1] at hk; exact Option.noConfusion hk
    · exact hv hte.2
  · exact ⟨i, rfl⟩

/-- Writing the key into the slot its probe returned makes a fresh probe for
the same key return that very slot. -/
theorem findEntry_after_set (f : Nat → Entry) (cap : Nat) (key : ObjRef) (v : Value) (i : Nat)
    (hfe : findEntry f cap key = some i) :
    findEntry (Function.update f i ⟨some key, v⟩) cap key = some i := by
  rw [findEntry, findEntryGo_eq_probeRun] at hfe ⊢
  rcases probeRun_eq_some f key _ _ _ hfe with ⟨L1, L2, heq, hcont⟩ | hts
  · rw [heq]
    refine probeRun_match _ key i ⟨key, by simp, rfl⟩ L1 L2 none ?_
    intro j hj hji
    have hc := hcont j hj
    simpa [continueSlot, Function.update_noteq hji] using hc
  · exact Option.noConfusion hts

/-- The slot a top-level findEntry returns is a real slot. -/
theorem findEntry_lt (f : Nat → Entry) (cap : Nat) (key : ObjRef) (hcap : 0 < cap) (i : Nat)
    (hfe : findEntry f cap key = some i) : i < cap := by
  rw [findEntry, findEntryGo_eq_probeRun] at hfe
  rcases probeRun_eq_some f key _ _ _ hfe with ⟨L1, L2, heq, -⟩ | hts
  · have : i ∈ probeSeq cap (key.hash % cap) cap := by
      rw [heq]; simp
    exact probeSeq_lt cap hcap i cap (key.hash % cap) (Nat.mod_lt _ hcap) this
  · exact Option.noConfusion hts

/-- The slot a top-level findEntry returns holds a NULL key or the key
itself. -/
theorem findEntry_result (f : Nat → Entry) (cap : Nat) (key : ObjRef) (i : Nat)
    (hfe : findEntry f cap key = some i) :
    (f i).key = none ∨ matchSlot f key i := by
  rw [findEntry, findEntryGo_eq_probeRun] at hfe
  exact probeRun_result f key _ none i (Or.inl rfl) hfe



/-- tableGet on a table whose probe slot for `key` was just overwritten with
`(key, v)`: it reports v. -/
theorem tableGet_updated (t1 : Table) (k : ObjRef) (v : Value) (i : Nat) (c2 : Nat)
    (hc2 : c2 ≠ 0)
    (hfe : findEntry t1.entries t1.capacity k = some i) :
    tableGet ⟨c2, t1.capacity, Function.update t1.entries i ⟨some k, v⟩⟩ k = some v := by
  have h2 := findEntry_after_set t1.entries t1.capacity k v i hfe
  simp only [tableGet]
  rw [if_neg hc2]
  rw [h2]
  simp



theorem tableSet_tableGet (t : Table) (k : ObjRef) (v : Value) (hwf : TableWF t) :
    tableGet (tableSet t k v).2 k = some v := by
  obtain ⟨hload, hcnt, hdist⟩ := hwf
  simp only [tableSet]
  by_cases hg : loadExceeded t.count t.capacity = true
  · rw [if_pos hg]
    have hcap1 : 0 < (adjustCapacity t (growCapacity t.capacity)).capacity := by
      simp only [adjustCapacity, growCapacity]
      split <;> omega
    have hempty : ∃ e, e < (adjustCapacity t (growCapacity t.capacity)).capacity ∧
        trulyEmptyB ((adjustCapacity t (growCapacity t.capacity)).entries e) = true :=
      ⟨0, hcap1, by simp [adjustCapacity, trulyEmptyB, emptyEntry]⟩
    obtain ⟨i, hfe⟩ := findEntry_isSome _ _ k hcap1 hempty
    rw [hfe]
    simp only [adjustCapacity, emptyEntry, and_self, if_true]
    exact tableGet_updated (adjustCapacity t (growCapacity t.capacity)) k v i (t.count + 1)
      (Nat.succ_ne_zero _) hfe
  · rw [if_neg hg]
    have hg2 : 4 * (t.count + 1) ≤ 3 * t.capacity := by
      simp only [loadExceeded, decide_eq_true_eq] at hg
      omega
    have hcap : 0 < t.capacity := by omega
    have hlt : t.load < t.capacity := by omega
    obtain ⟨i, hfe⟩ := findEntry_isSome t.entries t.capacity k hcap (exists_trulyEmpty t hlt)
    rw [hfe]
    dsimp only
    by_cases hcond : (t.entries i).key = none ∧ (t.entries i).value = Value.nil
    · rw [if_pos hcond]
      exact tableGet_updated t k v i (t.count + 1) (Nat.succ_ne_zero _) hfe
    · rw [if_neg hcond]
      have hne : ¬ trulyEmptyB (t.entries i) = true := by
        simp only [trulyEmptyB, Bool.and_eq_true, decide_eq_true_eq]
        exact hcond
      have hpos := load_pos_of_slot t i (findEntry_lt t.entries t.capacity k hcap i hfe) hne
      have hc2 : t.count ≠ 0 := by omega
      exact tableGet_updated t k v i t.count hc2 hfe



theorem tableDelete_tableGet (t : Table) (k : ObjRef) (hwf : TableWF t) :
    tableGet (tableDelete t k).2 k = none := by
  obtain ⟨hload, hcnt, hdist⟩ := hwf
  by_cases hc0 : t.count = 0
  · simp only [tableDelete]
    rw [if_pos hc0]
    simp only [tableGet]
    rw [if_pos hc0]
  · simp only [tableDelete]
    rw [if_neg hc0]
    have hcap : 0 < t.capacity := by omega
    have hlt : t.load < t.capacity := by omega
    obtain ⟨i, hfe⟩ := findEntry_isSome t.entries t.capacity k hcap (exists_trulyEmpty t hlt)
    rw [hfe]
    dsimp only
    cases hk : (t.entries i).key with
    | none =>
      simp only [tableGet]
      rw [if_neg hc0, hfe]
      dsimp only
      rw [hk]
    | some k1 =>
      -- the deleted slot really held the key
      have hid1 : k1.id = k.id := by
        rcases findEntry_result t.entries t.capacity k i hfe with hnone | ⟨k2, hk2, hid2⟩
        · rw [hk] at hnone; exact Option.noConfusion hnone
        · rw [hk] at hk2
          obtain rfl : k2 = k1 := by simpa using hk2.symm
          exact hid2
      have hilt : i < t.capacity := findEntry_lt t.entries t.capacity k hcap i hfe
      -- the tombstoned bucket array
      set g : Nat → Entry := Function.update t.entries i ⟨none, Value.bool true⟩ with hg
      -- a truly-empty slot survives the tombstoning
      obtain ⟨e, he, hte⟩ := exists_trulyEmpty t hlt
      have hei : e ≠ i := by
        intro hrfl
        rw [hrfl] at hte
        simp only [trulyEmptyB, Bool.and_eq_true, decide_eq_true_eq] at hte
        rw [hk] at hte
        exact Option.noConfusion hte.1
      have hte2 : trulyEmptyB (g e) = true := by
        rw [hg, Function.update_noteq hei]
        exact hte
      obtain ⟨m, hfe2⟩ := findEntry_isSome g t.capacity k hcap ⟨e, he, hte2⟩
      -- the slot the fresh probe returns cannot hold the key
      have hkeynone : (g m).key = none := by
        rcases findEntry_result g t.capacity k m hfe2 with hnone | ⟨km, hkm, hidm⟩
        · exact hnone
        · exfalso
          have hmi : m ≠ i := by
            intro hmi2
            rw [hmi2, hg, Function.update_same] at hkm
            exact Option.noConfusion hkm
          rw [hg, Function.update_noteq hmi] at hkm
          have hmlt : m < t.capacity := findEntry_lt g t.capacity k hcap m hfe2
          have := hdist i hilt m hmlt
            (by simp [keyIdAt, hk])
            (by simp [keyIdAt, hk, hkm, hid1, hidm])
          exact hmi this.symm
      -- the lookup on the tombstoned table misses
      simp only [tableGet]
      rw [if_neg hc0]
      rw [show findEntry
            (Table.mk t.count t.capacity g).entries (Table.mk t.count t.capacity g).capacity k =
          some m from hfe2]
      dsimp only
      rw [hkeynone]

/-- C1: the claim states that the dispatch loop, on reading OP_JUMP, advances
the instruction pointer by the 2-byte big-endian operand, and on
OP_JUMP_IF_FALSE does so exactly when the top of stack is falsey, never
popping.  The code refutes this: the switch of run() has no case for either
opcode (they are not even enumerators of chunk.h's OpCode), so the byte is
ignored and execution continues at the immediately following byte.  This
theorem evaluates the code at the failing inputs: on a chunk starting
`OP_JUMP 0x00 0x02` the step leaves everything unchanged except ip, which
becomes 1 — not the 5 (= 3 + operand) the claim requires — and on a chunk
starting `OP_JUMP_IF_FALSE 0x00 0x02` with a falsey top of stack the step
again only advances ip by one. -/
theorem clox_C1_jump_opcodes_ignored :
    step u0 chJump (initialVM u0 emptyHeap) =
      StepResult.next { initialVM u0 emptyHeap with ip := 1 } ∧
    isFalsey (peek 0 stFalsey) = true ∧
    step u0 chJumpIf stFalsey = StepResult.next { stFalsey with ip := 1 } :=
  ⟨rfl, rfl, rfl⟩

/-- C2: the claim states that interpreting
`var i = 0; while (i < 3) { print i; i = i + 1; }` writes `0\n1\n2\n` and
returns INTERPRET_OK.  The code refutes this: the program prints nothing and
returns INTERPRET_RUNTIME_ERROR with "Undefined variable 'i'." — copyString
(object.c) never consults the intern table, so the identifier constant read
by OP_GET_GLOBAL is a different object handle than the one OP_DEFINE_GLOBAL
inserted, and the pointer-keyed findEntry misses; moreover the while loop
could never repeat anyway (whileStatement emits no backward jump, and the VM
has no OP_JUMP_IF_FALSE case).  Stated for both contents of indeterminate
memory, `u0` and `u1`. -/
theorem clox_C2_while_program_runtime_error :
    (let r := interpret u0 2000 2000 c2src
     (r.1, r.2.1.output, r.2.1.errors)) =
      (some InterpretResult.runtimeError, [],
       ["Undefined variable " ++ sq ++ "i" ++ sq ++ ".", "[line 1] in script"]) ∧
    (let r := interpret u1 2000 2000 c2src
     (r.1, r.2.1.output)) = (some InterpretResult.runtimeError, []) :=
  ⟨by decide, by decide⟩

/-- C3: the claim states that growth (triggered when count+1 exceeds 0.75 of
capacity) rehashes every non-tombstone entry, so previously stored keys stay
mapped.  The code refutes this: adjustCapacity (table.c) zeroes
table->capacity *before* its reinsertion loop, whose bound is that very
capacity, so the loop body never runs and every old entry is dropped.  Here
`t6` holds six bindings (count 6 of capacity 8, verified before the set);
inserting a seventh key trips the load factor, and afterwards the first key
— mapped before the set — is gone. -/
theorem clox_C3_growth_drops_entries :
    (t6.count, t6.capacity, tableGet t6 (kRef 1), tableGet t6 (kRef 6),
     loadExceeded t6.count t6.capacity) =
      (6, 8, some (Value.number 1), some (Value.number 6), true) ∧
    (let r := tableSet t6 (kRef 7) (Value.number 7)
     (r.1, tableGet r.2 (kRef 1), tableGet r.2 (kRef 7))) =
      (true, none, some (Value.number 7)) :=
  ⟨by decide, by decide⟩

/-- C4: the claim states that two copyString calls on the same character
sequence return the identical handle (string interning).  The code refutes
this: copyString (object.c) performs no intern-table lookup — it
unconditionally allocates, so the second call returns a fresh object whose
identity differs from the first even though the contents coincide.  Stated
for every heap and every character sequence. -/
theorem clox_C4_copyString_never_interns :
    ∀ (h : ObjHeap) (chars : List Char),
      (copyString h chars).1.id ≠ (copyString (copyString h chars).2 chars).1.id ∧
      (copyString h chars).1.chars = (copyString (copyString h chars).2 chars).1.chars := by
  intro h chars
  exact ⟨by simp [copyString, allocateString], rfl⟩

/-- C5: the claim states that OP_SET_GLOBAL on an absent name deletes the
just-inserted entry, reports "Undefined variable 'X'.", returns
INTERPRET_RUNTIME_ERROR, and leaves the globals map exactly as before.  The
error, message and deletion all happen as claimed (conjuncts two, three,
four), but the code refutes the "map unchanged" part: when the probing
insert of the absent name trips the load factor, adjustCapacity's dead
rehash loop (see C3) destroys every pre-existing binding — here `kRef 1`,
mapped before the instruction, is unmapped after it. -/
theorem clox_C5_set_global_growth_destroys_globals :
    (let r := step u0 c5chunk c5vm
     (tableGet c5vm.globals (kRef 1), r.resultOf, r.stateOf.errors,
      tableGet r.stateOf.globals (kRef 7), tableGet r.stateOf.globals (kRef 1))) =
      (some (Value.number 1), some InterpretResult.runtimeError,
       ["Undefined variable " ++ sq ++ "g" ++ sq ++ ".", "[line 1] in script"],
       none, none) := by
  decide

/-- C6: for every well-formed table (count dominating the used-or-tombstoned
buckets, load factor respected, no key identity stored twice — the invariant
the module maintains), and every key and value: immediately after
tableSet(t, k, v) a tableGet of k yields v, and immediately after
tableDelete(t, k) a tableGet of k reports the key absent.  The set half
covers both the growth and the no-growth path (growth replaces the bucket
array by a fresh empty one, but the just-written key is found regardless);
the delete half covers the key-present case (the bucket becomes a tombstone,
which the fresh probe passes until it reaches a NULL-keyed slot) and the
key-absent case. -/
theorem clox_C6_table_roundtrip :
    ∀ (t : Table) (k : ObjRef) (v : Value), TableWF t →
      tableGet (tableSet t k v).2 k = some v ∧
      tableGet (tableDelete t k).2 k = none :=
  fun t k v hwf => ⟨tableSet_tableGet t k v hwf, tableDelete_tableGet t k hwf⟩

/-- C6 witness: the round trip applied to the concrete six-entry table `t6`
(whose well-formedness is computed) and a fresh key. -/
theorem clox_C6_table_roundtrip_witness :
    TableWF t6 ∧
    (tableGet (tableSet t6 (kRef 9) (Value.number 9)).2 (kRef 9) = some (Value.number 9) ∧
     tableGet (tableDelete t6 (kRef 9)).2 (kRef 9) = none) :=
  ⟨by unfold TableWF; decide,
   clox_C6_table_roundtrip t6 (kRef 9) (Value.number 9) (by unfold TableWF; decide)⟩

/-- C7: the claim states that
`var a = 1; { var a = 2; print a; } print a;` writes `2\n1\n` and returns
INTERPRET_OK.  The code refutes this: the inner (local) print writes `2`,
but the final OP_GET_GLOBAL fails with "Undefined variable 'a'." and the
run returns INTERPRET_RUNTIME_ERROR, because copyString never interns and
the globals table is keyed by object identity (see C4): the handle stored by
OP_DEFINE_GLOBAL differs from the handle looked up.  Stated for both
contents of indeterminate memory. -/
theorem clox_C7_shadowing_program_runtime_error :
    (let r := interpret u0 2000 2000 c7src
     (r.1, r.2.1.output, r.2.1.errors)) =
      (some InterpretResult.runtimeError, ["2"],
       ["Undefined variable " ++ sq ++ "a" ++ sq ++ ".", "[line 1] in script"]) ∧
    (let r := interpret u1 2000 2000 c7src
     (r.1, r.2.1.output)) = (some InterpretResult.runtimeError, ["2"]) :=
  ⟨by decide, by decide⟩

/-- C8: compile (compiler.c) sets panicMode to true before the priming
advance(), and errorAt returns before printing or setting hadError whenever
panicMode is set — the first conjunct states this for every state, token and
message.  Consequently a source whose first token is an error token (`@`)
still compiles successfully with no diagnostic: the second and third
conjuncts evaluate compile on `"@ print 1;"` — it returns true and prints
nothing to stderr. -/
theorem clox_C8_initial_panicMode_suppression :
    (∀ (s : CState) (tok : Token) (msg : String),
      s.panicMode = true → errorAt s tok msg = s) ∧
    (compile 2000 c8src).1 = true ∧
    (compile 2000 c8src).2.diags = [] :=
  ⟨fun s tok msg h => by simp [errorAt, h], by decide, by decide⟩

/-- C8 witness: the suppression conjunct applied at a concrete state with
panicMode set. -/
theorem clox_C8_initial_panicMode_suppression_witness :
    c8state.panicMode = true ∧
    errorAt c8state ⟨TokenType.TOKEN_ERROR, [], 1⟩ "Unexpected character." = c8state :=
  ⟨rfl, clox_C8_initial_panicMode_suppression.1 c8state ⟨TokenType.TOKEN_ERROR, [], 1⟩
    "Unexpected character." rfl⟩

/-- C9: the VM's value stack is a fixed array of STACK_MAX = 256 slots
(vm.h) and push (vm.c) performs no bound check whatsoever: the first
conjunct states unconditionally — in particular when stackTop is already
256 — that push writes at index stackTop and bumps it.  The remaining
conjuncts exhibit a compiled program doing exactly that: `c9chunk` is the
compiled form of `c9src` (256 locals initialized to true, then
`print true;`; the fourth conjunct proves the compiler emits precisely this
shape on the three-local instance, and the third restates c9chunk's 515
bytes in closed form).  After 257 dispatch steps — the 256 local
initializers plus the operand of the print — the stack top stands at 257,
`Value.bool true` has been written at stack index STACK_MAX, past the end
of the 256-slot array (that slot's initial indeterminate content being
`u0.val = Value.nil`), the run is still in progress, and stderr is empty:
no "Stack overflow." is ever reported. -/
theorem clox_C9_stack_overflow_unchecked :
    (∀ (v : Value) (s : VMState),
        (push v s).stackTop = s.stackTop + 1 ∧ (push v s).stack s.stackTop = v) ∧
    STACK_MAX = 256 ∧
    c9chunk.code.toList = List.replicate 256 OP_TRUE ++ [OP_TRUE, OP_PRINT]
                            ++ List.replicate 256 OP_POP ++ [OP_RETURN] ∧
    (compile 2000 c9smallSrc).2.chunk =
      ⟨#[OP_TRUE, OP_TRUE, OP_TRUE, OP_TRUE, OP_PRINT, OP_POP, OP_POP, OP_POP, OP_RETURN],
       #[1, 1, 1, 1, 1, 1, 1, 1, 1], #[]⟩ ∧
    (let r := runFuel u0 c9chunk 257 (initialVM u0 emptyHeap)
     (r.1.stack STACK_MAX, r.1.stackTop, r.1.errors, r.2)) =
      (Value.bool true, STACK_MAX + 1, [], none) :=
  ⟨fun v s => ⟨rfl, by simp [push]⟩, rfl, by decide, by decide, by decide⟩

/-- C10: every byte read by the dispatch loop that carries no case label in
run()'s switch — the modelled jump opcodes among them, and operand bytes
executed as opcodes — leaves the entire VM state untouched except the
instruction pointer, which moves to the immediately following byte; no error
is reported and the loop continues. -/
theorem clox_C10_unknown_opcode_skipped :
    ∀ (u : Undef) (ch : Chunk) (s : VMState),
      ch.code.getD s.ip 0 ∉ handledOpcodes →
      step u ch s = StepResult.next { s with ip := s.ip + 1 } := by
  intro u ch s h
  simp only [handledOpcodes, List.mem_cons, not_or] at h
  obtain ⟨h0, h1, h2, h3, h4, h5, h6, h7, h8, h9, h10, h11, h12, h13, h14, h15, h16, h17,
    h18, h19, h20, -⟩ := h
  simp only [step, OP_CONSTANT, OP_NIL, OP_TRUE, OP_FALSE, OP_POP, OP_GET_LOCAL, OP_SET_LOCAL,
    OP_GET_GLOBAL, OP_DEFINE_GLOBAL, OP_SET_GLOBAL, OP_EQUAL, OP_NEGATE, OP_GREATER, OP_LESS,
    OP_ADD, OP_SUBTRACT, OP_MULTIPLY, OP_DIVIDE, OP_NOT, OP_PRINT, OP_RETURN] at *
  rw [if_neg h0, if_neg h1, if_neg h2, if_neg h3, if_neg h4, if_neg h5, if_neg h6, if_neg h7,
    if_neg h8, if_neg h9, if_neg h10, if_neg h11, if_neg h12, if_neg h13, if_neg h14,
    if_neg h15, if_neg h16, if_neg h17, if_neg h18, if_neg h19, if_neg h20]

/-- C10 witness: the byte OP_JUMP (the first byte of `chJump`) carries no
case label, and stepping on it only advances ip. -/
theorem clox_C10_unknown_opcode_skipped_witness :
    chJump.code.getD 0 0 ∉ handledOpcodes ∧
    step u1 chJump (initialVM u1 emptyHeap) =
      StepResult.next { initialVM u1 emptyHeap with ip := 1 } :=
  ⟨by decide, clox_C10_unknown_opcode_skipped u1 chJump (initialVM u1 emptyHeap) (by decide)⟩

end Clox
